import Mathlib

/-!
# Verification of `safe-controls-refinement.mjs`

A shallow embedding of the pointer/touch camera-control refinement module and
its point-cloud sampling / ray-picking utilities, together with proofs about
the specification's claims.

Modelling conventions:
* A JavaScript number is modelled by `JSNum α`: a finite value drawn from a
  linear ordered field `α`, positive infinity, negative infinity, or NaN.
  Functions whose source arithmetic is exact on rationals are embedded at
  `α := ℚ` (computably); functions that call `Math.hypot`/`Math.sqrt` are
  embedded at `α := ℝ`.  IEEE rounding of `Number` arithmetic is idealised
  as exact field arithmetic, and `-0` is identified with `0`.
* The interaction state machine is embedded as an explicit step function on a
  state record.  The externally owned camera/controller objects are split
  into the fields the module itself writes (`controls.enabled`,
  `controls.mouseButtons.LEFT`, held in the state) and the remaining reads
  (camera-to-target distance, polar bounds), which are supplied as event
  inputs; camera writes and controller/navigation calls are recorded as an
  effect trace.
-/

namespace SafeControls

/-- Model of a JavaScript number over a linear ordered field `α`:
a finite value, `Infinity`, `-Infinity`, or `NaN`. -/
inductive JSNum (α : Type) where
  | fin (x : α)
  | posInf
  | negInf
  | nan
  deriving DecidableEq

namespace JSNum

variable {α : Type} [LinearOrderedField α]

/-- `Number.isFinite`. -/
def isFinite : JSNum α → Bool
  | fin _ => true
  | _ => false

/-- Whether the value is `Infinity` or `-Infinity`. -/
def isInfinite : JSNum α → Bool
  | posInf => true
  | negInf => true
  | _ => false

/-- JavaScript `<` (false whenever an operand is NaN). -/
def lt : JSNum α → JSNum α → Bool
  | fin x, fin y => decide (x < y)
  | fin _, posInf => true
  | negInf, fin _ => true
  | negInf, posInf => true
  | _, _ => false

/-- JavaScript `<=` (false whenever an operand is NaN). -/
def le : JSNum α → JSNum α → Bool
  | fin x, fin y => decide (x ≤ y)
  | fin _, posInf => true
  | negInf, fin _ => true
  | negInf, posInf => true
  | negInf, negInf => true
  | posInf, posInf => true
  | _, _ => false

/-- JavaScript unary minus. -/
def neg : JSNum α → JSNum α
  | fin x => fin (-x)
  | posInf => negInf
  | negInf => posInf
  | nan => nan

/-- JavaScript `+` on numbers. -/
def add : JSNum α → JSNum α → JSNum α
  | nan, _ => nan
  | _, nan => nan
  | fin x, fin y => fin (x + y)
  | fin _, posInf => posInf
  | fin _, negInf => negInf
  | posInf, fin _ => posInf
  | negInf, fin _ => negInf
  | posInf, posInf => posInf
  | negInf, negInf => negInf
  | posInf, negInf => nan
  | negInf, posInf => nan

/-- JavaScript binary `-` on numbers. -/
def sub (a b : JSNum α) : JSNum α := add a (neg b)

/-- JavaScript `*` on numbers. -/
def mul : JSNum α → JSNum α → JSNum α
  | nan, _ => nan
  | _, nan => nan
  | fin x, fin y => fin (x * y)
  | fin x, posInf => if 0 < x then posInf else if x < 0 then negInf else nan
  | fin x, negInf => if 0 < x then negInf else if x < 0 then posInf else nan
  | posInf, fin y => if 0 < y then posInf else if y < 0 then negInf else nan
  | negInf, fin y => if 0 < y then negInf else if y < 0 then posInf else nan
  | posInf, posInf => posInf
  | negInf, negInf => posInf
  | posInf, negInf => negInf
  | negInf, posInf => negInf

/-- JavaScript `/` on numbers (with `-0` identified with `0`, so a finite
value divided by zero follows the sign of the numerator). -/
def div : JSNum α → JSNum α → JSNum α
  | nan, _ => nan
  | _, nan => nan
  | fin x, fin y =>
      if y = 0 then (if 0 < x then posInf else if x < 0 then negInf else nan)
      else fin (x / y)
  | fin _, posInf => fin 0
  | fin _, negInf => fin 0
  | posInf, fin y => if 0 ≤ y then posInf else negInf
  | negInf, fin y => if 0 ≤ y then negInf else posInf
  | posInf, posInf => nan
  | posInf, negInf => nan
  | negInf, posInf => nan
  | negInf, negInf => nan

/-- `Math.abs`. -/
def abs : JSNum α → JSNum α
  | fin x => fin (if x < 0 then -x else x)
  | posInf => posInf
  | negInf => posInf
  | nan => nan

/-- `Math.max` (NaN-propagating). -/
def jmax : JSNum α → JSNum α → JSNum α
  | nan, _ => nan
  | _, nan => nan
  | fin x, fin y => fin (if x ≤ y then y else x)
  | posInf, _ => posInf
  | _, posInf => posInf
  | negInf, b => b
  | a, negInf => a

/-- `Math.min` (NaN-propagating). -/
def jmin : JSNum α → JSNum α → JSNum α
  | nan, _ => nan
  | _, nan => nan
  | fin x, fin y => fin (if x ≤ y then x else y)
  | negInf, _ => negInf
  | _, negInf => negInf
  | posInf, b => b
  | a, posInf => a

end JSNum

/-- `INTERACTION_MODE` from the source (a frozen string enum). -/
inductive InteractionMode where
  | none
  | pan
  | pinch
  | orbit
  | dolly
  | tilt
  | other
  deriving DecidableEq

/-- `isDesktopPointer(pointerType)`: every pointer type other than
`'touch'` and `'pen'` counts as desktop. -/
inductive PointerTypeKind where
  | mouse
  | touch
  | pen
  | other
  deriving DecidableEq

def isDesktopPointer : PointerTypeKind → Bool
  | PointerTypeKind.touch => false
  | PointerTypeKind.pen => false
  | _ => true

/-- `resolveLeftMouseAction(event)`: `'rotate'` when `altKey`, else `'pan'`. -/
inductive LeftMouseAction where
  | rotate
  | pan
  deriving DecidableEq

def resolveLeftMouseAction (altKey : Bool) : LeftMouseAction :=
  if altKey then LeftMouseAction.rotate else LeftMouseAction.pan

/-- `classifyPointerInteraction` from the source. -/
def classifyPointerInteraction (pointerType : PointerTypeKind) (button : ℤ)
    (altKey shiftKey : Bool) (activeTouchCount : ℕ) : InteractionMode :=
  if !(isDesktopPointer pointerType) then
    (if 2 ≤ activeTouchCount then InteractionMode.pinch else InteractionMode.pan)
  else if button = 0 && shiftKey then InteractionMode.tilt
  else if button = 0 && altKey then InteractionMode.orbit
  else if button = 0 then InteractionMode.pan
  else if button = 1 then InteractionMode.dolly
  else if button = 2 then InteractionMode.orbit
  else InteractionMode.other

variable {α : Type} [LinearOrderedField α]

/-- `shouldTranslateCameraForTargetDelta` from the source: the gate that
lets a pan translate the camera along with the target. -/
def shouldTranslateCameraForTargetDelta (userInteracting : Bool)
    (interactionMode : InteractionMode) (deltaLength epsilon : JSNum α) : Bool :=
  userInteracting && decide (interactionMode = InteractionMode.pan) &&
    JSNum.isFinite deltaLength && JSNum.lt epsilon deltaLength

/-- `clamp(value, minValue, maxValue)` from the source:
`Math.min(Math.max(value, minValue), maxValue)`. -/
def clamp (value minValue maxValue : JSNum α) : JSNum α :=
  JSNum.jmin (JSNum.jmax value minValue) maxValue

/-- `computeZoomedCameraDistance` from the source (`zoomFactor` defaults to
`0.72` at call sites). -/
def computeZoomedCameraDistance
    (currentDistance minDistance maxDistance zoomFactor : JSNum α) : JSNum α :=
  if !(JSNum.isFinite currentDistance) || JSNum.le currentDistance (JSNum.fin 0) then
    currentDistance
  else
    let lower := if JSNum.isFinite minDistance then minDistance else JSNum.fin 0
    let upper := if JSNum.isFinite maxDistance then JSNum.jmax lower maxDistance
      else JSNum.posInf
    let nextDistance := JSNum.mul currentDistance zoomFactor
    clamp nextDistance lower upper

/-- `computeTiltAngleFromDrag` from the source (`radiansPerPixel` defaults to
`0.005` and `maxStep` to `0.1` at call sites). -/
def computeTiltAngleFromDrag (deltaY radiansPerPixel maxStep : JSNum α) : JSNum α :=
  if !(JSNum.isFinite deltaY) || !(JSNum.isFinite radiansPerPixel)
      || decide (radiansPerPixel = JSNum.fin 0) then
    JSNum.fin 0
  else
    clamp (JSNum.mul deltaY radiansPerPixel) (JSNum.neg maxStep) maxStep

/-- A mutable 3-vector record (`{x, y, z}`). -/
structure Vec3 (α : Type) where
  x : JSNum α
  y : JSNum α
  z : JSNum α
  deriving DecidableEq

/-- `Math.hypot(x, y, z)`: `Infinity` if any argument is infinite, NaN if any
remaining argument is NaN, otherwise the Euclidean norm. -/
noncomputable def hypot3 (a b c : JSNum ℝ) : JSNum ℝ :=
  if JSNum.isInfinite a || JSNum.isInfinite b || JSNum.isInfinite c then
    JSNum.posInf
  else
    match a, b, c with
    | JSNum.fin x, JSNum.fin y, JSNum.fin z =>
        JSNum.fin (Real.sqrt (x * x + y * y + z * z))
    | _, _, _ => JSNum.nan

/-- The record returned by `applyPanTranslation`. -/
structure PanTranslationResult (α : Type) where
  delta : Vec3 α
  deltaLength : JSNum α
  shouldTranslate : Bool
  nextCamera : Vec3 α

/-- `applyPanTranslation` from the source (`epsilon` defaults to `1e-8`). -/
noncomputable def applyPanTranslation (prevCamera prevTarget nextTarget : Vec3 ℝ)
    (userInteracting : Bool) (interactionMode : InteractionMode)
    (epsilon : JSNum ℝ) : PanTranslationResult ℝ :=
  let delta : Vec3 ℝ :=
    { x := JSNum.sub nextTarget.x prevTarget.x
      y := JSNum.sub nextTarget.y prevTarget.y
      z := JSNum.sub nextTarget.z prevTarget.z }
  let deltaLength := hypot3 delta.x delta.y delta.z
  let shouldTranslate := shouldTranslateCameraForTargetDelta userInteracting
    interactionMode deltaLength epsilon
  if shouldTranslate then
    { delta := delta
      deltaLength := deltaLength
      shouldTranslate := shouldTranslate
      nextCamera :=
        { x := JSNum.add prevCamera.x delta.x
          y := JSNum.add prevCamera.y delta.y
          z := JSNum.add prevCamera.z delta.z } }
  else
    { delta := delta
      deltaLength := deltaLength
      shouldTranslate := shouldTranslate
      nextCamera := prevCamera }

/-- `nextTarget − prevTarget`, componentwise (the `delta` computed inside
`applyPanTranslation`). -/
noncomputable def targetDelta (prevTarget nextTarget : Vec3 ℝ) : Vec3 ℝ :=
  { x := JSNum.sub nextTarget.x prevTarget.x
    y := JSNum.sub nextTarget.y prevTarget.y
    z := JSNum.sub nextTarget.z prevTarget.z }

/-- The lower clamp bound actually used by `computeZoomedCameraDistance`:
`minDistance` itself when finite (even when negative), `0` otherwise. -/
def zoomLower (minDistance : JSNum α) : JSNum α :=
  if JSNum.isFinite minDistance then minDistance else JSNum.fin 0

/-- The upper clamp bound actually used by `computeZoomedCameraDistance`. -/
def zoomUpper (minDistance maxDistance : JSNum α) : JSNum α :=
  if JSNum.isFinite maxDistance then JSNum.jmax (zoomLower minDistance) maxDistance
  else JSNum.posInf

/-- Modelled from the spec sentence of claim C2: the zoomed distance it
claims, with the clamp interval `[max(0, minDistance), max(minDistance,
maxDistance)]`. -/
def zoomClaimValue (currentDistance minDistance maxDistance zoomFactor : JSNum α) :
    JSNum α :=
  if !(JSNum.isFinite currentDistance) || JSNum.le currentDistance (JSNum.fin 0) then
    currentDistance
  else
    clamp (JSNum.mul currentDistance zoomFactor)
      (JSNum.jmax (JSNum.fin 0) minDistance) (JSNum.jmax minDistance maxDistance)

/-- JavaScript `ToInt32` truncation step: truncate a finite number toward
zero (the result is then reduced modulo `2^16` by the `& 0xffff` in
`decodeFloat16`; reducing modulo `2^16` directly is equivalent because
`2^16` divides `2^32`). -/
def jsTruncInt (q : ℚ) : ℤ :=
  if q < 0 then -(Int.floor (-q)) else Int.floor q

/-- `value & 0xffff` as used by `decodeFloat16` (on a non-finite value JS
`ToInt32` gives 0, though `decodeFloat16` never reaches this case). -/
def toUint16 (v : JSNum ℚ) : ℕ :=
  match v with
  | JSNum.fin q => (jsTruncInt q % 65536).toNat
  | _ => 0

/-- `decodeFloat16` from the source: masks `0x8000`/`0x7c00`/`0x03ff`,
exponent shift 10, max exponent `0x1f`. -/
def decodeFloat16 (value : JSNum ℚ) : JSNum ℚ :=
  if !(JSNum.isFinite value) then JSNum.nan
  else
    let bits := toUint16 value
    let sign : ℚ := if bits &&& 32768 = 0 then 1 else -1
    let exponent : ℕ := (bits &&& 31744) >>> 10
    let fraction : ℕ := bits &&& 1023
    if exponent = 0 then
      if fraction = 0 then JSNum.fin (sign * 0)
      else JSNum.fin (sign * (2 : ℚ) ^ (-14 : ℤ) * (fraction / 1024))
    else if exponent = 31 then
      if fraction = 0 then JSNum.mul (JSNum.fin sign) JSNum.posInf
      else JSNum.nan
    else JSNum.fin (sign * (2 : ℚ) ^ ((exponent : ℤ) - 15) * (1 + fraction / 1024))

/-- Modelled from the claim's words: the IEEE-754 binary16 decode of the low
16 bits, with the sign, exponent and fraction fields carved out by division
and remainder instead of the source's bit masks. -/
def decodeFloat16IEEE (value : JSNum ℚ) : JSNum ℚ :=
  match value with
  | JSNum.fin q =>
      let bits : ℕ := (jsTruncInt q % 65536).toNat
      let s : ℚ := if bits / 32768 = 1 then -1 else 1
      let e : ℕ := bits / 1024 % 32
      let f : ℕ := bits % 1024
      if e = 0 then JSNum.fin (s * (2 : ℚ) ^ (-14 : ℤ) * (f / 1024))
      else if e = 31 then
        if f = 0 then (if bits / 32768 = 1 then JSNum.negInf else JSNum.posInf)
        else JSNum.nan
      else JSNum.fin (s * (2 : ℚ) ^ ((e : ℤ) - 15) * (1 + f / 1024))
  | _ => JSNum.nan

/-- Presence (truthiness) of each field of the config record passed to
`installSafeControlsRefinement`. -/
structure InstallConfig where
  windowTarget : Bool
  domElement : Bool
  controls : Bool
  camera : Bool
  lotEditState : Bool
  mouse : Bool
  vector3 : Bool
  onUserNavigate : Bool
  deriving DecidableEq

/-- The throw guard at the top of `installSafeControlsRefinement`:
`if (!windowTarget || !domElement || !controls || !camera || !MOUSE ||
!Vector3) throw`. -/
def installThrows (c : InstallConfig) : Bool :=
  !c.windowTarget || !c.domElement || !c.controls || !c.camera || !c.mouse ||
    !c.vector3

/-- The `shiftTilt` sub-state record of the installed machine. -/
structure ShiftTiltState where
  active : Bool
  pointerId : Option ℤ
  lastClientY : ℚ
  deriving DecidableEq

/-- The state owned by one `installSafeControlsRefinement` call, together
with the two externally owned controller fields the module writes
(`controls.enabled` and `controls.mouseButtons.LEFT`). -/
structure MachineState where
  interactionMode : InteractionMode
  touchPointerIds : Finset ℤ
  activeMousePointerId : Option ℤ
  shiftTilt : ShiftTiltState
  controlsEnabled : Bool
  leftMouseBinding : LeftMouseAction
  deriving DecidableEq

/-- The pointer-event fields the handlers read. -/
structure PointerEventRec where
  pointerType : PointerTypeKind
  pointerId : ℤ
  button : ℤ
  altKey : Bool
  shiftKey : Bool
  clientY : ℚ
  deriving DecidableEq

/-- One input event delivered to the installed machine.  `editActive` is the
externally owned `lotEditState.active` flag at dispatch time (it is not
checked by pointer-up/cancel or blur, matching the source).  The
double-click handler reads the camera-to-target distance and the
controller's distance bounds from the externally owned objects; they are
supplied with the event. -/
inductive MachineEvent where
  | pointerDown (e : PointerEventRec) (editActive : Bool)
  | pointerMove (e : PointerEventRec) (editActive : Bool)
  | pointerUpOrCancel (e : PointerEventRec)
  | windowBlur
  | doubleClick (pointerType : PointerTypeKind) (editActive : Bool)
      (currentDistance minDistance maxDistance : JSNum ℚ)
  deriving DecidableEq

/-- Calls the handlers make on the externally owned camera, controller and
navigation callback, recorded as a trace. -/
inductive Effect where
  | preventDefault
  | stopPropagation
  | rotateUp (amount : JSNum ℚ)
  | fallbackTilt (amount : JSNum ℚ)
  | controlsUpdate
  | userNavigate
  | zoomCamera (nextDistance : JSNum ℚ)
  deriving DecidableEq

/-- Capabilities of the externally supplied collaborators, fixed at install:
whether `controls.rotateUp` is a function and whether `onUserNavigate` is a
function. -/
structure MachineParams where
  hasRotateUp : Bool
  hasOnUserNavigate : Bool
  deriving DecidableEq

/-- `updateTouchInteractionMode` from the source. -/
def updateTouchInteractionMode (s : MachineState) : MachineState :=
  if 2 ≤ s.touchPointerIds.card then
    { s with interactionMode := InteractionMode.pinch }
  else if s.touchPointerIds.card = 1 then
    { s with interactionMode := InteractionMode.pan }
  else
    { s with interactionMode := InteractionMode.none }

/-- `endShiftTilt(pointerId)` from the source; `none` models being called
with no argument (from the blur handler). -/
def endShiftTilt (s : MachineState) (pointerId : Option ℤ) : MachineState :=
  if s.shiftTilt.active = false then s
  else if pointerId ≠ none ∧ pointerId ≠ s.shiftTilt.pointerId then s
  else
    { s with
      shiftTilt :=
        { active := false
          pointerId := none
          lastClientY := s.shiftTilt.lastClientY },
      controlsEnabled := true }

/-- `setLeftMouseBinding(event)` from the source. -/
def setLeftMouseBinding (s : MachineState) (altKey : Bool) : MachineState :=
  { s with leftMouseBinding :=
      if resolveLeftMouseAction altKey = LeftMouseAction.rotate then
        LeftMouseAction.rotate
      else LeftMouseAction.pan }

/-- `resetLeftMouseBinding()` from the source. -/
def resetLeftMouseBinding (s : MachineState) : MachineState :=
  { s with leftMouseBinding := LeftMouseAction.pan }

/-- `handlePointerDown` from the source. -/
def handlePointerDown (s : MachineState) (e : PointerEventRec)
    (editActive : Bool) : MachineState × List Effect :=
  if editActive then (s, [])
  else if !(isDesktopPointer e.pointerType) then
    (updateTouchInteractionMode
      { s with touchPointerIds := insert e.pointerId s.touchPointerIds }, [])
  else
    let mode := classifyPointerInteraction e.pointerType e.button e.altKey
      e.shiftKey 0
    let s1 := { s with interactionMode := mode }
    let s2 :=
      if e.button = 0 then
        setLeftMouseBinding { s1 with activeMousePointerId := some e.pointerId }
          e.altKey
      else s1
    if mode = InteractionMode.tilt then
      ({ s2 with
          shiftTilt :=
            { active := true
              pointerId := some e.pointerId
              lastClientY := e.clientY },
          controlsEnabled := false },
        [Effect.preventDefault, Effect.stopPropagation])
    else (s2, [])

/-- `handlePointerMove` from the source.  The fallback (no `rotateUp`
capability) recomputes the camera position from spherical coordinates; that
is a pure camera write, recorded as the `fallbackTilt` effect. -/
def handlePointerMove (P : MachineParams) (s : MachineState)
    (e : PointerEventRec) (editActive : Bool) : MachineState × List Effect :=
  if s.shiftTilt.active = false then (s, [])
  else if some e.pointerId ≠ s.shiftTilt.pointerId then (s, [])
  else if !(isDesktopPointer e.pointerType) then (s, [])
  else if editActive then (s, [])
  else
    let deltaY := e.clientY - s.shiftTilt.lastClientY
    let s1 := { s with shiftTilt :=
      { s.shiftTilt with lastClientY := e.clientY } }
    let rotateUpAmount := computeTiltAngleFromDrag (JSNum.fin deltaY)
      (JSNum.fin (1 / 200)) (JSNum.fin (1 / 10))
    if JSNum.le (JSNum.abs rotateUpAmount) (JSNum.fin (1 / 1000000000000)) then
      (s1, [])
    else
      (s1,
        [if P.hasRotateUp then Effect.rotateUp rotateUpAmount
          else Effect.fallbackTilt rotateUpAmount,
         Effect.controlsUpdate] ++
        (if P.hasOnUserNavigate then [Effect.userNavigate] else []) ++
        [Effect.preventDefault])

/-- `handlePointerUpOrCancel` from the source. -/
def handlePointerUpOrCancel (s : MachineState) (e : PointerEventRec) :
    MachineState × List Effect :=
  if !(isDesktopPointer e.pointerType) then
    (updateTouchInteractionMode
      { s with touchPointerIds := s.touchPointerIds.erase e.pointerId }, [])
  else
    let s1 := endShiftTilt s (some e.pointerId)
    let s2 :=
      if some e.pointerId = s1.activeMousePointerId ∨ e.button = 0 then
        resetLeftMouseBinding { s1 with activeMousePointerId := none }
      else s1
    ({ s2 with interactionMode := InteractionMode.none }, [])

/-- `handleWindowBlur` from the source. -/
def handleWindowBlur (s : MachineState) : MachineState × List Effect :=
  let s1 := endShiftTilt { s with touchPointerIds := (∅ : Finset ℤ) } none
  (resetLeftMouseBinding
    { s1 with
      activeMousePointerId := none
      interactionMode := InteractionMode.none }, [])

/-- `handleDoubleClick` from the source.  `currentDistance` is the length of
the externally owned camera-minus-target offset at dispatch time. -/
def handleDoubleClick (P : MachineParams) (s : MachineState)
    (pointerType : PointerTypeKind) (editActive : Bool)
    (currentDistance minDistance maxDistance : JSNum ℚ) :
    MachineState × List Effect :=
  if editActive then (s, [])
  else if !(isDesktopPointer pointerType) then (s, [])
  else if !(JSNum.lt (JSNum.fin (1 / 100000000)) currentDistance) then (s, [])
  else
    let nextDistance := computeZoomedCameraDistance currentDistance minDistance
      maxDistance (JSNum.fin (18 / 25))
    if JSNum.le (JSNum.abs (JSNum.sub nextDistance currentDistance))
        (JSNum.fin (1 / 100000000)) then
      (s, [])
    else
      (s,
        [Effect.zoomCamera nextDistance, Effect.controlsUpdate] ++
        (if P.hasOnUserNavigate then [Effect.userNavigate] else []) ++
        [Effect.preventDefault])

/-- Dispatch one event to its handler. -/
def step (P : MachineParams) (s : MachineState) :
    MachineEvent → MachineState × List Effect
  | MachineEvent.pointerDown e edit => handlePointerDown s e edit
  | MachineEvent.pointerMove e edit => handlePointerMove P s e edit
  | MachineEvent.pointerUpOrCancel e => handlePointerUpOrCancel s e
  | MachineEvent.windowBlur => handleWindowBlur s
  | MachineEvent.doubleClick pt edit cur mn mx =>
      handleDoubleClick P s pt edit cur mn mx

/-- The state right after `installSafeControlsRefinement` returns: fresh
pointer state, and the left-mouse binding reset to pan.  The controller's
initial `enabled` flag is externally owned, hence a parameter. -/
def initialState (controlsEnabled : Bool) : MachineState :=
  { interactionMode := InteractionMode.none
    touchPointerIds := (∅ : Finset ℤ)
    activeMousePointerId := none
    shiftTilt := { active := false, pointerId := none, lastClientY := 0 }
    controlsEnabled := controlsEnabled
    leftMouseBinding := LeftMouseAction.pan }

/-- Run a sequence of events from a state (effects discarded). -/
def run (P : MachineParams) (s : MachineState)
    (events : List MachineEvent) : MachineState :=
  events.foldl (fun acc e => (step P acc e).1) s

/-- Whether an event is free of desktop pointer-down and desktop
pointer-up/cancel components (pointer moves, blur and double-clicks are
allowed, as are touch/pen contacts). -/
def isTouchOnlyEvent : MachineEvent → Bool
  | MachineEvent.pointerDown e _ => !(isDesktopPointer e.pointerType)
  | MachineEvent.pointerUpOrCancel e => !(isDesktopPointer e.pointerType)
  | _ => true

/-- The touch bookkeeping invariant: no mouse/tilt gesture is recorded, and
the interaction mode is exactly determined by the number of touch contacts. -/
def touchModeConsistent (s : MachineState) : Prop :=
  s.activeMousePointerId = none ∧ s.shiftTilt.active = false ∧
  s.interactionMode =
    (if 2 ≤ s.touchPointerIds.card then InteractionMode.pinch
      else if s.touchPointerIds.card = 1 then InteractionMode.pan
      else InteractionMode.none)

/-- Natural-number ceiling division, `Math.ceil(a / b)` for positive
integers: `(a + b - 1) / b`. -/
def ceilDivNat (a b : ℕ) : ℕ := (a + b - 1) / b

/-- The record returned by `sampleCpuPointsForFocus` (the `Float32Array` is
modelled as a flat list; every stored value is an exact binary16 value, so
float32 storage is lossless). -/
structure SampleResult where
  samples : List ℚ
  stride : JSNum ℚ
  sourcePointCount : ℕ
  sampledPointCount : ℕ
  deriving DecidableEq

/-- Decode one source point: three half-floats starting at `pointIndex * 3`,
with the first two axes sign-flipped; `none` when any axis decodes
non-finite (an out-of-range read is JS `undefined`, which decodes to NaN,
modelled by the `JSNum.nan` list default). -/
def decodeSamplePoint (cpuPoints : List (JSNum ℚ)) (pointIndex : ℕ) :
    Option (ℚ × ℚ × ℚ) :=
  let x := JSNum.neg (decodeFloat16 (cpuPoints.getD (pointIndex * 3) JSNum.nan))
  let y := JSNum.neg (decodeFloat16 (cpuPoints.getD (pointIndex * 3 + 1) JSNum.nan))
  let z := decodeFloat16 (cpuPoints.getD (pointIndex * 3 + 2) JSNum.nan)
  match x, y, z with
  | JSNum.fin a, JSNum.fin b, JSNum.fin c => some (a, b, c)
  | _, _, _ => none

/-- The sampling loop `for (pointIndex = 0; pointIndex < sourcePointCount;
pointIndex += stride)`, collecting the surviving triples in order.  The
`1 ≤ stride` guard matches every call site (`stride = Math.max(1, …)`) and
makes the recursion well-founded. -/
def sampleLoop (cpuPoints : List (JSNum ℚ)) (n stride i : ℕ) : List ℚ :=
  if _h : i < n ∧ 1 ≤ stride then
    (match decodeSamplePoint cpuPoints i with
      | some p => [p.1, p.2.1, p.2.2]
      | none => []) ++ sampleLoop cpuPoints n stride (i + stride)
  else []
termination_by n - i
decreasing_by omega

/-- The indices the sampling loop visits, as a list (spec-side companion of
`sampleLoop`). -/
def strideIndicesAux (n s i : ℕ) : List ℕ :=
  if _h : i < n ∧ 1 ≤ s then i :: strideIndicesAux n s (i + s) else []
termination_by n - i
decreasing_by omega

/-- `Math.floor(cpuPoints.length / 3)`. -/
def availableOf (cpuPoints : List (JSNum ℚ)) : ℕ := cpuPoints.length / 3

/-- `Number.isFinite(pointCount) ? Math.max(0, Math.floor(pointCount)) :
availablePointCount`; on an integer, `Math.max(0, ·)` is `Int.toNat`. -/
def requestedOf (cpuPoints : List (JSNum ℚ)) (pointCount : JSNum ℚ) : ℕ :=
  match pointCount with
  | JSNum.fin q => (Int.floor q).toNat
  | _ => availableOf cpuPoints

/-- `sourcePointCount = Math.min(requestedPointCount, availablePointCount)`. -/
def sourceOf (cpuPoints : List (JSNum ℚ)) (pointCount : JSNum ℚ) : ℕ :=
  min (requestedOf cpuPoints pointCount) (availableOf cpuPoints)

/-- `Number.isFinite(targetSampleCount) && targetSampleCount > 0 ?
Math.floor(targetSampleCount) : 18000`.  A parameter in `(0, 1)` floors
to `0`. -/
def normalizedTargetOf (targetSampleCount : JSNum ℚ) : ℕ :=
  match targetSampleCount with
  | JSNum.fin q => if 0 < q then (Int.floor q).toNat else 18000
  | _ => 18000

/-- `sampleCpuPointsForFocus` from the source.  When the normalized target
is `0` (parameter in `(0,1)`), the JS stride is `Infinity`: only index 0 is
visited, and its writes land in a zero-length `Float32Array` and are
discarded, so the result (when index 0 decodes finite) carries an empty
sample list. -/
def sampleCpuPointsForFocus (cpuPoints : List (JSNum ℚ))
    (pointCount targetSampleCount : JSNum ℚ) : Option SampleResult :=
  if cpuPoints.length < 3 then none
  else if sourceOf cpuPoints pointCount = 0 then none
  else if normalizedTargetOf targetSampleCount = 0 then
    match decodeSamplePoint cpuPoints 0 with
    | some _ =>
        some
          { samples := []
            stride := JSNum.posInf
            sourcePointCount := sourceOf cpuPoints pointCount
            sampledPointCount := 0 }
    | none => none
  else
    if (sampleLoop cpuPoints (sourceOf cpuPoints pointCount)
        (max 1 (ceilDivNat (sourceOf cpuPoints pointCount)
          (normalizedTargetOf targetSampleCount))) 0).length = 0 then none
    else
      some
        { samples := sampleLoop cpuPoints (sourceOf cpuPoints pointCount)
            (max 1 (ceilDivNat (sourceOf cpuPoints pointCount)
              (normalizedTargetOf targetSampleCount))) 0
          stride := JSNum.fin ((max 1 (ceilDivNat (sourceOf cpuPoints pointCount)
            (normalizedTargetOf targetSampleCount)) : ℕ) : ℚ)
          sourcePointCount := sourceOf cpuPoints pointCount
          sampledPointCount := (sampleLoop cpuPoints (sourceOf cpuPoints pointCount)
            (max 1 (ceilDivNat (sourceOf cpuPoints pointCount)
              (normalizedTargetOf targetSampleCount))) 0).length / 3 }

/-- The sample list the claim describes: decode the three half-floats of
every visited source point (first two axes sign-flipped, third as-is) and
drop every point with a non-finite axis.  Modelled from the claim's words as
the flat concatenation of the surviving triples. -/
def retainedSamplesSpec (cpuPoints : List (JSNum ℚ)) (n s : ℕ) : List ℚ :=
  (((strideIndicesAux n s 0).filterMap (decodeSamplePoint cpuPoints)).map
    (fun p => [p.1, p.2.1, p.2.2])).flatten

/-- The accumulator of the search loop in `findClosestSampleToRay`
(`bestOffset = none` models the source's `-1`). -/
structure RayBest where
  bestOffset : Option ℕ
  bestDistanceSq : JSNum ℝ
  bestRayDistance : JSNum ℝ

/-- The record returned by `findClosestSampleToRay`. -/
structure RayHit where
  sampleOffset : ℕ
  x : JSNum ℝ
  y : JSNum ℝ
  z : JSNum ℝ
  distanceSq : JSNum ℝ
  rayDistance : JSNum ℝ

/-- The projection length of a sample along the normalized ray:
`toPoint · direction` with JS left-to-right evaluation. -/
noncomputable def rayDistanceOf (origin dir : Vec3 ℝ) (px py pz : JSNum ℝ) :
    JSNum ℝ :=
  JSNum.add
    (JSNum.add (JSNum.mul (JSNum.sub px origin.x) dir.x)
      (JSNum.mul (JSNum.sub py origin.y) dir.y))
    (JSNum.mul (JSNum.sub pz origin.z) dir.z)

/-- The squared perpendicular distance from the sample to its projection
`origin + direction * rayDistance` on the ray. -/
noncomputable def perpDistanceSqOf (origin dir : Vec3 ℝ) (px py pz t : JSNum ℝ) :
    JSNum ℝ :=
  JSNum.add
    (JSNum.add
      (JSNum.mul (JSNum.sub px (JSNum.add origin.x (JSNum.mul dir.x t)))
        (JSNum.sub px (JSNum.add origin.x (JSNum.mul dir.x t))))
      (JSNum.mul (JSNum.sub py (JSNum.add origin.y (JSNum.mul dir.y t)))
        (JSNum.sub py (JSNum.add origin.y (JSNum.mul dir.y t)))))
    (JSNum.mul (JSNum.sub pz (JSNum.add origin.z (JSNum.mul dir.z t)))
      (JSNum.sub pz (JSNum.add origin.z (JSNum.mul dir.z t))))

/-- The effective distance budget: `Number.isFinite(maxDistanceSq) &&
maxDistanceSq >= 0 ? maxDistanceSq : Infinity`. -/
noncomputable def distanceSqLimitOf (m : JSNum ℝ) : JSNum ℝ :=
  if JSNum.isFinite m && JSNum.le (JSNum.fin 0) m then m else JSNum.posInf

/-- One iteration of the search loop: skip on non-positive projection, skip
on exceeding the budget, otherwise replace the incumbent when the squared
distance is strictly smaller, or within `1e-12` of it with a strictly
smaller projection. -/
noncomputable def rayLoopUpdate (origin dir : Vec3 ℝ) (limit : JSNum ℝ)
    (acc : RayBest) (offset : ℕ) (px py pz : JSNum ℝ) : RayBest :=
  if JSNum.le (rayDistanceOf origin dir px py pz) (JSNum.fin 0) then acc
  else if JSNum.lt limit (perpDistanceSqOf origin dir px py pz
      (rayDistanceOf origin dir px py pz)) then acc
  else if JSNum.lt (perpDistanceSqOf origin dir px py pz
        (rayDistanceOf origin dir px py pz)) acc.bestDistanceSq ||
      (JSNum.le (JSNum.abs (JSNum.sub (perpDistanceSqOf origin dir px py pz
          (rayDistanceOf origin dir px py pz)) acc.bestDistanceSq))
          (JSNum.fin (1 / 1000000000000)) &&
        JSNum.lt (rayDistanceOf origin dir px py pz) acc.bestRayDistance) then
    { bestOffset := some offset
      bestDistanceSq := perpDistanceSqOf origin dir px py pz
        (rayDistanceOf origin dir px py pz)
      bestRayDistance := rayDistanceOf origin dir px py pz }
  else acc

/-- The search loop `for (offset = 0; offset < samples.length; offset += 3)`
over the flat sample buffer; a trailing partial triple reads JS `undefined`
(modelled NaN) for its missing entries. -/
noncomputable def rayLoop (origin dir : Vec3 ℝ) (limit : JSNum ℝ) :
    List (JSNum ℝ) → ℕ → RayBest → RayBest
  | [], _, acc => acc
  | [x], offset, acc =>
      rayLoopUpdate origin dir limit acc offset x JSNum.nan JSNum.nan
  | [x, y], offset, acc =>
      rayLoopUpdate origin dir limit acc offset x y JSNum.nan
  | x :: y :: z :: rest, offset, acc =>
      rayLoop origin dir limit rest (offset + 3)
        (rayLoopUpdate origin dir limit acc offset x y z)

/-- The direction divided componentwise by its own `Math.hypot` length. -/
noncomputable def normalizedRayDir (d : Vec3 ℝ) : Vec3 ℝ :=
  ⟨JSNum.div d.x (hypot3 d.x d.y d.z), JSNum.div d.y (hypot3 d.x d.y d.z),
    JSNum.div d.z (hypot3 d.x d.y d.z)⟩

/-- `findClosestSampleToRay` from the source (`maxDistanceSq` defaults to
`Infinity`). -/
noncomputable def findClosestSampleToRay (samples : List (JSNum ℝ))
    (rayOrigin rayDirection : Vec3 ℝ) (maxDistanceSq : JSNum ℝ) :
    Option RayHit :=
  if samples.length < 3 then none
  else if !(JSNum.lt (JSNum.fin (1 / 1000000000000))
      (hypot3 rayDirection.x rayDirection.y rayDirection.z)) then none
  else if !(JSNum.isFinite rayOrigin.x) || !(JSNum.isFinite rayOrigin.y) ||
      !(JSNum.isFinite rayOrigin.z) then none
  else
    match (rayLoop rayOrigin (normalizedRayDir rayDirection)
        (distanceSqLimitOf maxDistanceSq) samples 0
        ⟨none, JSNum.posInf, JSNum.posInf⟩) with
    | ⟨none, _, _⟩ => none
    | ⟨some o, dSq, t⟩ =>
        some ⟨o, samples.getD o JSNum.nan, samples.getD (o + 1) JSNum.nan,
          samples.getD (o + 2) JSNum.nan, dSq, t⟩

/-- The loop invariant: the incumbent is either still empty, or it records a
full triple at a visited offset whose stored projection and squared distance
are the recomputed values, with the two skip conditions false. -/
def RayInv (samples : List (JSNum ℝ)) (origin dir : Vec3 ℝ)
    (limit : JSNum ℝ) (offset : ℕ) (acc : RayBest) : Prop :=
  acc.bestOffset = none ∨
  ∃ o, acc.bestOffset = some o ∧ o % 3 = 0 ∧ o + 2 < offset ∧
    acc.bestRayDistance = rayDistanceOf origin dir (samples.getD o JSNum.nan)
      (samples.getD (o + 1) JSNum.nan) (samples.getD (o + 2) JSNum.nan) ∧
    acc.bestDistanceSq = perpDistanceSqOf origin dir
      (samples.getD o JSNum.nan) (samples.getD (o + 1) JSNum.nan)
      (samples.getD (o + 2) JSNum.nan) acc.bestRayDistance ∧
    JSNum.le acc.bestRayDistance (JSNum.fin 0) = false ∧
    JSNum.lt limit acc.bestDistanceSq = false

end SafeControls

namespace SafeControls

/-- The masked sign test used by `decodeFloat16` agrees with reading the top
bit of a 16-bit word by division. -/
theorem and_signBit_eq_zero_iff (n : ℕ) (hn : n < 65536) :
    (n &&& 32768 = 0) ↔ n / 32768 = 0 := by
  have ht := Nat.and_two_pow n 15
  have htb : Nat.testBit n 15 = decide (n / 2 ^ 15 % 2 = 1) :=
    Nat.testBit_to_div_mod
  have h2 : (2 : ℕ) ^ 15 = 32768 := by norm_num
  rw [h2] at ht htb
  have hd : n / 32768 < 2 := by omega
  constructor
  · intro h
    rw [h] at ht
    by_contra hne
    have h1 : n / 32768 = 1 := by omega
    rw [htb] at ht
    simp [h1] at ht
  · intro h
    rw [ht, htb]
    simp [h]

/-- The masked-and-shifted exponent extraction used by `decodeFloat16`
agrees with division and remainder. -/
theorem and_exponentField_eq (n : ℕ) :
    (n &&& 31744) >>> 10 = n / 1024 % 32 := by
  have key : (n &&& 31744) >>> 10 = (n >>> 10) &&& 31 := by
    apply Nat.eq_of_testBit_eq
    intro i
    simp only [Nat.testBit_and, Nat.testBit_shiftRight]
    by_cases h : i < 5
    · interval_cases i <;>
        simp [show Nat.testBit 31744 10 = true from by decide,
          show Nat.testBit 31744 11 = true from by decide,
          show Nat.testBit 31744 12 = true from by decide,
          show Nat.testBit 31744 13 = true from by decide,
          show Nat.testBit 31744 14 = true from by decide,
          show Nat.testBit 31 0 = true from by decide,
          show Nat.testBit 31 1 = true from by decide,
          show Nat.testBit 31 2 = true from by decide,
          show Nat.testBit 31 3 = true from by decide,
          show Nat.testBit 31 4 = true from by decide]
    · have h1 : Nat.testBit 31744 (10 + i) = false := by
        apply Nat.testBit_eq_false_of_lt
        calc (31744 : ℕ) < 2 ^ 15 := by norm_num
          _ ≤ 2 ^ (10 + i) := Nat.pow_le_pow_right (by norm_num) (by omega)
      have h2 : Nat.testBit 31 i = false := by
        apply Nat.testBit_eq_false_of_lt
        calc (31 : ℕ) < 2 ^ 5 := by norm_num
          _ ≤ 2 ^ i := Nat.pow_le_pow_right (by norm_num) (by omega)
      simp [h1, h2]
  rw [key]
  have ha : (n >>> 10) &&& 31 = (n >>> 10) % 32 := by
    have h := Nat.and_pow_two_sub_one_eq_mod (n >>> 10) 5
    simpa using h
  have hb : n >>> 10 = n / 1024 := by
    have h := Nat.shiftRight_eq_div_pow n 10
    simpa using h
  rw [ha, hb]

/-- The masked fraction extraction used by `decodeFloat16` agrees with the
remainder modulo `1024`. -/
theorem and_fractionField_eq (n : ℕ) : n &&& 1023 = n % 1024 := by
  have h := Nat.and_pow_two_sub_one_eq_mod n 10
  simpa using h

/-- C9: `decodeFloat16` implements the IEEE-754 binary16 decode of the low
16 bits of its input — subnormals, signed infinities, NaN payloads and the
normal range as described by the claim — and maps any non-finite input to
NaN.  (In this rational model `-0` is identified with `0`, so the "signed
zero" of the subnormal case is the single rational zero.) -/
theorem decodeFloat16_claim (v : JSNum ℚ) : decodeFloat16 v = decodeFloat16IEEE v := by
  cases v with
  | posInf => rfl
  | negInf => rfl
  | nan => rfl
  | fin q =>
    have hbits : (jsTruncInt q % 65536).toNat < 65536 := by
      have h1 : (0 : ℤ) ≤ jsTruncInt q % 65536 := Int.emod_nonneg _ (by norm_num)
      have h2 : jsTruncInt q % 65536 < 65536 := Int.emod_lt_of_pos _ (by norm_num)
      omega
    simp only [decodeFloat16, decodeFloat16IEEE, JSNum.isFinite, Bool.not_true,
      Bool.false_eq_true, if_false, toUint16]
    set n := (jsTruncInt q % 65536).toNat with hn
    rw [and_exponentField_eq, and_fractionField_eq]
    have hdiv : n / 32768 = 0 ∨ n / 32768 = 1 := by omega
    have hs : (if n &&& 32768 = 0 then (1 : ℚ) else -1) =
        (if n / 32768 = 1 then (-1 : ℚ) else 1) := by
      rcases hdiv with h0 | h1
      · rw [if_pos ((and_signBit_eq_zero_iff n hbits).mpr h0), if_neg (by omega)]
      · rw [if_neg (fun hc => by
          have := (and_signBit_eq_zero_iff n hbits).mp hc
          omega), if_pos h1]
    rw [hs]
    have hsinf : JSNum.mul (JSNum.fin (if n / 32768 = 1 then (-1 : ℚ) else 1))
        JSNum.posInf = (if n / 32768 = 1 then JSNum.negInf else JSNum.posInf) := by
      rcases hdiv with h0 | h1
      · rw [if_neg (by omega), if_neg (by omega)]
        norm_num [JSNum.mul]
      · rw [if_pos h1, if_pos h1]
        norm_num [JSNum.mul]
    by_cases he : n / 1024 % 32 = 0
    · by_cases hf : n % 1024 = 0 <;> simp [he, hf]
    · by_cases he31 : n / 1024 % 32 = 31
      · by_cases hf : n % 1024 = 0 <;> simp [he, he31, hf, hsinf]
      · simp [he, he31]

/-- C5 counterexample: a config that supplies the two event sources,
controller, camera, action-code table and vector constructor but omits the
edit-mode flag holder and the navigation callback does **not** make
`installSafeControlsRefinement` throw — the guard never checks those two
fields. -/
theorem installThrows_counterexample :
    installThrows
        { windowTarget := true, domElement := true, controls := true,
          camera := true, lotEditState := false, mouse := true,
          vector3 := true, onUserNavigate := false } = false ∧
    InstallConfig.lotEditState
        { windowTarget := true, domElement := true, controls := true,
          camera := true, lotEditState := false, mouse := true,
          vector3 := true, onUserNavigate := false } = false := by
  exact ⟨rfl, rfl⟩

/-- C5 amended: `installSafeControlsRefinement` throws exactly when one of
`windowTarget`, `domElement`, `controls`, `camera`, `MOUSE`, `Vector3` is
absent (falsy); the edit-mode flag holder (`lotEditState`) and the
navigation callback (`onUserNavigate`) are optional and are not part of the
guard. -/
theorem installThrows_amended (c : InstallConfig) :
    installThrows c = true ↔
      (c.windowTarget = false ∨ c.domElement = false ∨ c.controls = false ∨
        c.camera = false ∨ c.mouse = false ∨ c.vector3 = false) := by
  cases c
  simp [installThrows]
  tauto

/-- Witness for C5 amended: a config missing only `windowTarget` throws. -/
theorem installThrows_amended_witness :
    installThrows
      { windowTarget := false, domElement := true, controls := true,
        camera := true, lotEditState := true, mouse := true,
        vector3 := true, onUserNavigate := true } = true :=
  (installThrows_amended _).mpr (Or.inl rfl)

theorem updateTouch_shiftTilt (s : MachineState) :
    (updateTouchInteractionMode s).shiftTilt = s.shiftTilt := by
  unfold updateTouchInteractionMode
  repeat (first | rfl | split)

theorem updateTouch_controlsEnabled (s : MachineState) :
    (updateTouchInteractionMode s).controlsEnabled = s.controlsEnabled := by
  unfold updateTouchInteractionMode
  repeat (first | rfl | split)

theorem updateTouch_activeMouse (s : MachineState) :
    (updateTouchInteractionMode s).activeMousePointerId = s.activeMousePointerId := by
  unfold updateTouchInteractionMode
  repeat (first | rfl | split)

theorem updateTouch_touch (s : MachineState) :
    (updateTouchInteractionMode s).touchPointerIds = s.touchPointerIds := by
  unfold updateTouchInteractionMode
  repeat (first | rfl | split)

/-- `updateTouchInteractionMode` establishes the touch invariant whenever no
mouse/tilt gesture is recorded. -/
theorem touchModeConsistent_update (s : MachineState)
    (hm : s.activeMousePointerId = none) (ht : s.shiftTilt.active = false) :
    touchModeConsistent (updateTouchInteractionMode s) := by
  refine ⟨by rw [updateTouch_activeMouse]; exact hm,
    by rw [updateTouch_shiftTilt]; exact ht, ?_⟩
  rw [updateTouch_touch]
  unfold updateTouchInteractionMode
  split
  · next h => simp [h]
  · next h =>
    split
    · next h1 => simp [h, h1]
    · next h1 => simp [h, h1]

/-- All branches of the double-click handler leave the machine state
unchanged (it only touches the externally owned camera/controller). -/
theorem handleDoubleClick_fst (P : MachineParams) (s : MachineState)
    (pt : PointerTypeKind) (edit : Bool) (cur mn mx : JSNum ℚ) :
    (handleDoubleClick P s pt edit cur mn mx).1 = s := by
  unfold handleDoubleClick
  try dsimp only
  repeat (first | rfl | split)

/-- The pointer-move handler never changes any field except
`shiftTilt.lastClientY`. -/
theorem handlePointerMove_fields (P : MachineParams) (s : MachineState)
    (e : PointerEventRec) (edit : Bool) :
    (handlePointerMove P s e edit).1.interactionMode = s.interactionMode ∧
    (handlePointerMove P s e edit).1.touchPointerIds = s.touchPointerIds ∧
    (handlePointerMove P s e edit).1.activeMousePointerId = s.activeMousePointerId ∧
    (handlePointerMove P s e edit).1.shiftTilt.active = s.shiftTilt.active ∧
    (handlePointerMove P s e edit).1.shiftTilt.pointerId = s.shiftTilt.pointerId ∧
    (handlePointerMove P s e edit).1.controlsEnabled = s.controlsEnabled ∧
    (handlePointerMove P s e edit).1.leftMouseBinding = s.leftMouseBinding := by
  unfold handlePointerMove
  try dsimp only
  repeat (first | exact ⟨rfl, rfl, rfl, rfl, rfl, rfl, rfl⟩ | split)

/-- One step preserves the touch invariant when the event carries no desktop
pointer-down/up component. -/
theorem touchModeConsistent_step (P : MachineParams) (s : MachineState)
    (e : MachineEvent) (hs : touchModeConsistent s)
    (he : isTouchOnlyEvent e = true) : touchModeConsistent (step P s e).1 := by
  obtain ⟨hm, ht, hmode⟩ := hs
  cases e with
  | pointerDown ev edit =>
    have hd : isDesktopPointer ev.pointerType = false := by
      simpa [isTouchOnlyEvent] using he
    cases edit with
    | true => exact ⟨hm, ht, hmode⟩
    | false =>
      simp only [step, handlePointerDown, hd, Bool.not_false, if_true,
        Bool.false_eq_true, if_false]
      exact touchModeConsistent_update _ hm ht
  | pointerMove ev edit =>
    obtain ⟨h1, h2, h3, h4, _, _, _⟩ := handlePointerMove_fields P s ev edit
    exact ⟨by rw [step, h3]; exact hm, by rw [step, h4]; exact ht,
      by rw [step, h1, h2]; exact hmode⟩
  | pointerUpOrCancel ev =>
    have hd : isDesktopPointer ev.pointerType = false := by
      simpa [isTouchOnlyEvent] using he
    simp only [step, handlePointerUpOrCancel, hd, Bool.not_false, if_true]
    exact touchModeConsistent_update _ hm ht
  | windowBlur =>
    simp only [step, handleWindowBlur, endShiftTilt, ht, resetLeftMouseBinding]
    exact ⟨rfl, ht, by simp⟩
  | doubleClick pt edit cur mn mx =>
    rw [show (step P s (MachineEvent.doubleClick pt edit cur mn mx)).1 =
      (handleDoubleClick P s pt edit cur mn mx).1 from rfl,
      handleDoubleClick_fst]
    exact ⟨hm, ht, hmode⟩

/-- C6 counterexample: from a fresh install, a touch contact (mode PAN)
followed by a middle-button desktop pointer-down leaves one touch id in the
set while the mode becomes DOLLY, refuting `size = 1 ∧ no pinch condition ⇒
mode = PAN` on a reachable state. -/
theorem touchInvariant_counterexample :
    (run ⟨true, true⟩ (initialState true)
        [MachineEvent.pointerDown
          ⟨PointerTypeKind.touch, 1, 0, false, false, 0⟩ false,
         MachineEvent.pointerDown
          ⟨PointerTypeKind.mouse, 2, 1, false, false, 0⟩ false]).touchPointerIds.card
      = 1 ∧
    (run ⟨true, true⟩ (initialState true)
        [MachineEvent.pointerDown
          ⟨PointerTypeKind.touch, 1, 0, false, false, 0⟩ false,
         MachineEvent.pointerDown
          ⟨PointerTypeKind.mouse, 2, 1, false, false, 0⟩ false]).interactionMode
      = InteractionMode.dolly ∧
    InteractionMode.dolly ≠ InteractionMode.pan := by
  refine ⟨by decide, by decide, by decide⟩

/-- C6 amended: in every state reached from a fresh install by a sequence of
events with no desktop pointer-down and no desktop pointer-up/cancel
(touch/pen contacts, pointer moves, double-clicks and window blurs are
unconstrained), the three mode implications hold: `size ≥ 2 ⇒ PINCH`,
`size = 1 ⇒ PAN`, and `size = 0` with no active mouse or tilt gesture `⇒
NONE`.  Interleaved desktop gestures can overwrite the mode (see the
counterexample), which is what the restriction excludes. -/
theorem touchInvariant_amended (P : MachineParams) (e0 : Bool)
    (events : List MachineEvent)
    (h : ∀ e ∈ events, isTouchOnlyEvent e = true) :
    (2 ≤ (run P (initialState e0) events).touchPointerIds.card →
      (run P (initialState e0) events).interactionMode = InteractionMode.pinch) ∧
    ((run P (initialState e0) events).touchPointerIds.card = 1 →
      (run P (initialState e0) events).interactionMode = InteractionMode.pan) ∧
    ((run P (initialState e0) events).touchPointerIds.card = 0 ∧
      (run P (initialState e0) events).activeMousePointerId = none ∧
      (run P (initialState e0) events).shiftTilt.active = false →
      (run P (initialState e0) events).interactionMode = InteractionMode.none) := by
  have key : ∀ (l : List MachineEvent) (s : MachineState), touchModeConsistent s →
      (∀ e ∈ l, isTouchOnlyEvent e = true) → touchModeConsistent (run P s l) := by
    intro l
    induction l with
    | nil => intro s hs _; exact hs
    | cons a t ih =>
      intro s hs hl
      have ha := hl a (List.mem_cons_self a t)
      have ht' := fun e hh => hl e (List.mem_cons_of_mem a hh)
      exact ih _ (touchModeConsistent_step P s a hs ha) ht'
  have hinit : touchModeConsistent (initialState e0) := by
    refine ⟨rfl, rfl, by simp [initialState]⟩
  obtain ⟨hm, ht, hmode⟩ := key events (initialState e0) hinit h
  refine ⟨?_, ?_, ?_⟩
  · intro h2
    rw [hmode, if_pos h2]
  · intro h1
    rw [hmode, if_neg (by omega), if_pos h1]
  · rintro ⟨h0, _, _⟩
    rw [hmode, if_neg (by omega), if_neg (by omega)]

/-- Witness for C6 amended: two touch contacts yield touch-set size 2 and
mode PINCH. -/
theorem touchInvariant_amended_witness :
    (run ⟨true, true⟩ (initialState true)
        [MachineEvent.pointerDown
          ⟨PointerTypeKind.touch, 10, 0, false, false, 0⟩ false,
         MachineEvent.pointerDown
          ⟨PointerTypeKind.touch, 11, 0, false, false, 0⟩ false]).touchPointerIds.card
      = 2 ∧
    (run ⟨true, true⟩ (initialState true)
        [MachineEvent.pointerDown
          ⟨PointerTypeKind.touch, 10, 0, false, false, 0⟩ false,
         MachineEvent.pointerDown
          ⟨PointerTypeKind.touch, 11, 0, false, false, 0⟩ false]).interactionMode
      = InteractionMode.pinch := by
  have hc : (run ⟨true, true⟩ (initialState true)
      [MachineEvent.pointerDown
        ⟨PointerTypeKind.touch, 10, 0, false, false, 0⟩ false,
       MachineEvent.pointerDown
        ⟨PointerTypeKind.touch, 11, 0, false, false, 0⟩ false]).touchPointerIds.card
      = 2 := by decide
  exact ⟨hc, (touchInvariant_amended ⟨true, true⟩ true _ (by decide)).1
    (le_of_eq hc.symm)⟩

/-- One step preserves "tilt active implies controller disabled". -/
theorem shiftTilt_step_inv (P : MachineParams) (s : MachineState)
    (e : MachineEvent)
    (hs : s.shiftTilt.active = true → s.controlsEnabled = false) :
    (step P s e).1.shiftTilt.active = true →
      (step P s e).1.controlsEnabled = false := by
  cases e with
  | pointerDown ev edit =>
    simp only [step, handlePointerDown]
    split
    · exact hs
    · split
      · rw [updateTouch_shiftTilt, updateTouch_controlsEnabled]
        exact hs
      · try dsimp only
        split
        · intro _; rfl
        · split <;> exact hs
  | pointerMove ev edit =>
    obtain ⟨_, _, _, h4, _, h6, _⟩ := handlePointerMove_fields P s ev edit
    rw [show (step P s (MachineEvent.pointerMove ev edit)).1 =
      (handlePointerMove P s ev edit).1 from rfl, h4, h6]
    exact hs
  | pointerUpOrCancel ev =>
    have key : (endShiftTilt s (some ev.pointerId)).shiftTilt.active = true →
        (endShiftTilt s (some ev.pointerId)).controlsEnabled = false := by
      unfold endShiftTilt
      split
      · exact hs
      · split
        · exact hs
        · intro hpost
          simp at hpost
    simp only [step, handlePointerUpOrCancel]
    split
    · rw [updateTouch_shiftTilt, updateTouch_controlsEnabled]
      exact hs
    · try dsimp only
      split
      · intro hpost
        exact key (by simpa [resetLeftMouseBinding] using hpost)
      · intro hpost
        exact key hpost
  | windowBlur =>
    have key : ∀ t : MachineState, (endShiftTilt t none).shiftTilt.active = true →
        (endShiftTilt t none).controlsEnabled = false := by
      intro t
      unfold endShiftTilt
      split
      · next h => intro hpost; rw [hpost] at h; simp at h
      · split
        · next hmis => simp at hmis
        · intro hpost
          simp at hpost
    simp only [step, handleWindowBlur]
    try dsimp only
    intro hpost
    exact key _ (by simpa [resetLeftMouseBinding] using hpost)
  | doubleClick pt edit cur mn mx =>
    rw [show (step P s (MachineEvent.doubleClick pt edit cur mn mx)).1 =
      (handleDoubleClick P s pt edit cur mn mx).1 from rfl,
      handleDoubleClick_fst]
    exact hs

/-- C7: in every reachable state of the installed machine, an active tilt
sub-state implies the external controller's `enabled` flag is false; and
every single transition that leaves the tilt sub-state from any state (a
matching pointer-up/cancel, or window blur) re-enables the controller. -/
theorem shiftTiltDisablesControls_claim :
    (∀ (P : MachineParams) (e0 : Bool) (events : List MachineEvent),
      (run P (initialState e0) events).shiftTilt.active = true →
      (run P (initialState e0) events).controlsEnabled = false) ∧
    (∀ (P : MachineParams) (s : MachineState) (e : MachineEvent),
      s.shiftTilt.active = true → (step P s e).1.shiftTilt.active = false →
      (step P s e).1.controlsEnabled = true) := by
  constructor
  · intro P e0 events
    have key : ∀ (l : List MachineEvent) (s : MachineState),
        (s.shiftTilt.active = true → s.controlsEnabled = false) →
        (run P s l).shiftTilt.active = true →
          (run P s l).controlsEnabled = false := by
      intro l
      induction l with
      | nil => intro s hs; exact hs
      | cons a t ih => intro s hs; exact ih _ (shiftTilt_step_inv P s a hs)
    exact key events (initialState e0) (by intro h; simp [initialState] at h)
  · intro P s e hact
    cases e with
    | pointerDown ev edit =>
      simp only [step, handlePointerDown]
      split
      · simp [hact]
      · split
        · rw [updateTouch_shiftTilt]
          simp [hact]
        · try dsimp only
          split
          · intro hpost
            simp at hpost
          · split <;> simp [hact, setLeftMouseBinding]
    | pointerMove ev edit =>
      obtain ⟨_, _, _, h4, _, _, _⟩ := handlePointerMove_fields P s ev edit
      rw [show (step P s (MachineEvent.pointerMove ev edit)).1 =
        (handlePointerMove P s ev edit).1 from rfl, h4]
      simp [hact]
    | pointerUpOrCancel ev =>
      have key : (endShiftTilt s (some ev.pointerId)).shiftTilt.active = false →
          (endShiftTilt s (some ev.pointerId)).controlsEnabled = true := by
        unfold endShiftTilt
        split
        · next h => rw [hact] at h; simp at h
        · split
          · next hmis =>
            intro hpost
            rw [hpost] at hact
            simp at hact
          · intro _; rfl
      simp only [step, handlePointerUpOrCancel]
      split
      · rw [updateTouch_shiftTilt]
        simp [hact]
      · try dsimp only
        split
        · intro hpost
          exact key (by simpa [resetLeftMouseBinding] using hpost)
        · intro hpost
          exact key hpost
    | windowBlur =>
      have key : (endShiftTilt
            { s with touchPointerIds := (∅ : Finset ℤ) } none).controlsEnabled
          = true := by
        unfold endShiftTilt
        split
        · next h => rw [hact] at h; simp at h
        · split
          · next hmis => simp at hmis
          · rfl
      simp only [step, handleWindowBlur]
      try dsimp only
      intro _
      simpa [resetLeftMouseBinding] using key
    | doubleClick pt edit cur mn mx =>
      rw [show (step P s (MachineEvent.doubleClick pt edit cur mn mx)).1 =
        (handleDoubleClick P s pt edit cur mn mx).1 from rfl,
        handleDoubleClick_fst]
      simp [hact]

/-- Witness for C7: after a shift+left pointer-down, the tilt sub-state is
active and the controller is disabled. -/
theorem shiftTiltDisablesControls_claim_witness :
    (run ⟨true, true⟩ (initialState true)
        [MachineEvent.pointerDown
          ⟨PointerTypeKind.mouse, 7, 0, false, true, 100⟩ false]).shiftTilt.active
      = true ∧
    (run ⟨true, true⟩ (initialState true)
        [MachineEvent.pointerDown
          ⟨PointerTypeKind.mouse, 7, 0, false, true, 100⟩ false]).controlsEnabled
      = false := by
  have ha : (run ⟨true, true⟩ (initialState true)
      [MachineEvent.pointerDown
        ⟨PointerTypeKind.mouse, 7, 0, false, true, 100⟩ false]).shiftTilt.active
      = true := by decide
  exact ⟨ha, shiftTiltDisablesControls_claim.1 ⟨true, true⟩ true _ ha⟩

/-- C8: while the edit-mode flag is active, pointer-down, pointer-move and
double-click leave the machine state (pointer state, controller enabled
flag and left-button binding) unchanged and produce no effects: no tilt
call, no camera write, no controller refresh, no navigation notification,
and no default-behavior suppression. -/
theorem editModeSuppression_claim (P : MachineParams) (s : MachineState)
    (e : PointerEventRec) (pt : PointerTypeKind) (cur mn mx : JSNum ℚ) :
    step P s (MachineEvent.pointerDown e true) = (s, []) ∧
    step P s (MachineEvent.pointerMove e true) = (s, []) ∧
    step P s (MachineEvent.doubleClick pt true cur mn mx) = (s, []) := by
  refine ⟨rfl, ?_, rfl⟩
  simp only [step, handlePointerMove]
  split
  · rfl
  · split
    · rfl
    · split
      · rfl
      · rfl

/-- C1: `applyPanTranslation` moves the camera by exactly `nextTarget −
prevTarget` precisely when the user is interacting, the mode is PAN, and the
Euclidean length of the delta is finite and strictly greater than `epsilon`;
in every other case the camera is returned unchanged. -/
theorem applyPanTranslation_claim (pc pt nt : Vec3 ℝ) (ui : Bool)
    (m : InteractionMode) (eps : JSNum ℝ) :
    ((ui = true ∧ m = InteractionMode.pan ∧
        JSNum.isFinite (hypot3 (targetDelta pt nt).x (targetDelta pt nt).y
          (targetDelta pt nt).z) = true ∧
        JSNum.lt eps (hypot3 (targetDelta pt nt).x (targetDelta pt nt).y
          (targetDelta pt nt).z) = true) →
      (applyPanTranslation pc pt nt ui m eps).nextCamera =
        { x := JSNum.add pc.x (targetDelta pt nt).x
          y := JSNum.add pc.y (targetDelta pt nt).y
          z := JSNum.add pc.z (targetDelta pt nt).z }) ∧
    (¬(ui = true ∧ m = InteractionMode.pan ∧
        JSNum.isFinite (hypot3 (targetDelta pt nt).x (targetDelta pt nt).y
          (targetDelta pt nt).z) = true ∧
        JSNum.lt eps (hypot3 (targetDelta pt nt).x (targetDelta pt nt).y
          (targetDelta pt nt).z) = true) →
      (applyPanTranslation pc pt nt ui m eps).nextCamera = pc) := by
  have hgate : shouldTranslateCameraForTargetDelta ui m
      (hypot3 (targetDelta pt nt).x (targetDelta pt nt).y (targetDelta pt nt).z)
      eps = true ↔
      (ui = true ∧ m = InteractionMode.pan ∧
        JSNum.isFinite (hypot3 (targetDelta pt nt).x (targetDelta pt nt).y
          (targetDelta pt nt).z) = true ∧
        JSNum.lt eps (hypot3 (targetDelta pt nt).x (targetDelta pt nt).y
          (targetDelta pt nt).z) = true) := by
    simp [shouldTranslateCameraForTargetDelta, Bool.and_eq_true, and_assoc]
  constructor
  · intro h
    have hg := hgate.mpr h
    simp only [applyPanTranslation, targetDelta] at hg ⊢
    rw [hg]
    simp
  · intro h
    have hg : shouldTranslateCameraForTargetDelta ui m
        (hypot3 (targetDelta pt nt).x (targetDelta pt nt).y (targetDelta pt nt).z)
        eps = false := by
      cases hb : shouldTranslateCameraForTargetDelta ui m
        (hypot3 (targetDelta pt nt).x (targetDelta pt nt).y (targetDelta pt nt).z)
        eps with
      | false => rfl
      | true => exact absurd (hgate.mp hb) h
    simp only [applyPanTranslation, targetDelta] at hg ⊢
    rw [hg]
    simp

/-- Witness for C1 at a concrete input: delta `(3, 4, 0)` has length `5`,
which is finite and exceeds the default epsilon `1e-8`, so the camera at the
origin moves to `(3, 4, 0)`. -/
theorem applyPanTranslation_claim_witness :
    (JSNum.lt (JSNum.fin (1e-8 : ℝ))
        (hypot3 (targetDelta ⟨JSNum.fin 0, JSNum.fin 0, JSNum.fin 0⟩
            ⟨JSNum.fin 3, JSNum.fin 4, JSNum.fin 0⟩).x
          (targetDelta ⟨JSNum.fin 0, JSNum.fin 0, JSNum.fin 0⟩
            ⟨JSNum.fin 3, JSNum.fin 4, JSNum.fin 0⟩).y
          (targetDelta ⟨JSNum.fin 0, JSNum.fin 0, JSNum.fin 0⟩
            ⟨JSNum.fin 3, JSNum.fin 4, JSNum.fin 0⟩).z) = true) ∧
    (applyPanTranslation ⟨JSNum.fin 0, JSNum.fin 0, JSNum.fin 0⟩
        ⟨JSNum.fin 0, JSNum.fin 0, JSNum.fin 0⟩
        ⟨JSNum.fin 3, JSNum.fin 4, JSNum.fin 0⟩ true InteractionMode.pan
        (JSNum.fin (1e-8 : ℝ))).nextCamera =
      ⟨JSNum.fin 3, JSNum.fin 4, JSNum.fin 0⟩ := by
  have hd : targetDelta ⟨JSNum.fin 0, JSNum.fin 0, JSNum.fin 0⟩
      ⟨JSNum.fin 3, JSNum.fin 4, JSNum.fin 0⟩ =
      ⟨JSNum.fin 3, JSNum.fin 4, JSNum.fin 0⟩ := by
    simp only [targetDelta, JSNum.sub, JSNum.neg, JSNum.add]
    norm_num
  have hh : hypot3 (JSNum.fin (3 : ℝ)) (JSNum.fin 4) (JSNum.fin 0) = JSNum.fin 5 := by
    simp only [hypot3, JSNum.isInfinite, Bool.or_self, Bool.or_false]
    rw [if_neg (by simp)]
    rw [show ((3 : ℝ) * 3 + 4 * 4 + 0 * 0) = 5 ^ 2 by norm_num,
      Real.sqrt_sq (by norm_num : (0 : ℝ) ≤ 5)]
  have hlt : JSNum.lt (JSNum.fin (1e-8 : ℝ)) (JSNum.fin 5) = true := by
    simp only [JSNum.lt, decide_eq_true_eq]
    norm_num
  have hfin : JSNum.isFinite (JSNum.fin (5 : ℝ)) = true := rfl
  refine ⟨by rw [hd, hh]; exact hlt, ?_⟩
  have h := (applyPanTranslation_claim ⟨JSNum.fin 0, JSNum.fin 0, JSNum.fin 0⟩
    ⟨JSNum.fin 0, JSNum.fin 0, JSNum.fin 0⟩ ⟨JSNum.fin 3, JSNum.fin 4, JSNum.fin 0⟩
    true InteractionMode.pan (JSNum.fin (1e-8 : ℝ))).1
    (by rw [hd, hh]; exact ⟨rfl, rfl, hfin, hlt⟩)
  rw [h, hd]
  simp only [JSNum.add]
  norm_num

/-- C2 counterexample: with `currentDistance = 1`, `minDistance = −4`,
`maxDistance = 10`, `zoomFactor = −1`, the code clamps to the interval
`[−4, 10]` (lower bound is the untouched finite `minDistance`), returning
`−1`, while the claim's interval `[max(0, −4), max(−4, 10)] = [0, 10]` would
return `0`; so the code's result is negative and differs from the claimed
clamping. -/
theorem computeZoomedCameraDistance_counterexample :
    computeZoomedCameraDistance (JSNum.fin (1 : ℚ)) (JSNum.fin (-4)) (JSNum.fin 10)
        (JSNum.fin (-1)) = JSNum.fin (-1) ∧
    zoomClaimValue (JSNum.fin (1 : ℚ)) (JSNum.fin (-4)) (JSNum.fin 10)
        (JSNum.fin (-1)) = JSNum.fin 0 ∧
    (JSNum.fin (-1 : ℚ) : JSNum ℚ) ≠ JSNum.fin 0 := by
  refine ⟨?_, ?_, by norm_num⟩ <;>
    norm_num [computeZoomedCameraDistance, zoomClaimValue, clamp, JSNum.mul,
      JSNum.jmax, JSNum.jmin, JSNum.le, JSNum.isFinite]

/-- C2 amended: `computeZoomedCameraDistance` returns `currentDistance`
unchanged when it is non-finite or ≤ 0, and otherwise clamps
`currentDistance × zoomFactor` to `[lower, upper]` where `lower` is
`minDistance` when finite (possibly negative) and `0` otherwise, and `upper`
is `max(lower, maxDistance)` when `maxDistance` is finite and `+∞` otherwise;
this interval is never empty. -/
theorem computeZoomedCameraDistance_amended {α : Type} [LinearOrderedField α]
    (cur minD maxD zf : JSNum α) :
    ((JSNum.isFinite cur = false ∨ JSNum.le cur (JSNum.fin 0) = true) →
      computeZoomedCameraDistance cur minD maxD zf = cur) ∧
    ((JSNum.isFinite cur = true ∧ JSNum.le cur (JSNum.fin 0) = false) →
      computeZoomedCameraDistance cur minD maxD zf =
        clamp (JSNum.mul cur zf) (zoomLower minD) (zoomUpper minD maxD)) ∧
    JSNum.le (zoomLower minD) (zoomUpper minD maxD) = true := by
  refine ⟨?_, ?_, ?_⟩
  · intro h
    rcases h with h | h <;>
      simp [computeZoomedCameraDistance, h]
  · rintro ⟨h1, h2⟩
    simp [computeZoomedCameraDistance, h1, h2, zoomLower, zoomUpper]
  · have key : ∀ x y : α, JSNum.le (JSNum.fin x) (JSNum.jmax (JSNum.fin x) (JSNum.fin y))
        = true := by
      intro x y
      by_cases h : x ≤ y <;> simp [JSNum.jmax, JSNum.le, h]
    cases minD <;> cases maxD <;>
      simp [zoomLower, zoomUpper, JSNum.le, JSNum.jmax, JSNum.isFinite, key] <;>
      (split <;> simp_all)

/-- Witness for C2 amended at the spec's own test vector: a positive finite
distance 5 with bounds `[0.6, 10]` and zoom factor `0.72` yields `3.6`. -/
theorem computeZoomedCameraDistance_amended_witness :
    (JSNum.isFinite (JSNum.fin (5 : ℚ)) = true ∧
      JSNum.le (JSNum.fin (5 : ℚ)) (JSNum.fin 0) = false) ∧
    computeZoomedCameraDistance (JSNum.fin (5 : ℚ)) (JSNum.fin (3 / 5))
      (JSNum.fin 10) (JSNum.fin (18 / 25)) = JSNum.fin (18 / 5) := by
  have hle : JSNum.le (JSNum.fin (5 : ℚ)) (JSNum.fin 0) = false := by
    norm_num [JSNum.le]
  refine ⟨⟨rfl, hle⟩, ?_⟩
  have h := (computeZoomedCameraDistance_amended (JSNum.fin (5 : ℚ))
    (JSNum.fin (3 / 5)) (JSNum.fin 10) (JSNum.fin (18 / 25))).2.1 ⟨rfl, hle⟩
  rw [h]
  norm_num [clamp, JSNum.mul, JSNum.jmax, JSNum.jmin, zoomLower, zoomUpper,
    JSNum.isFinite]

theorem ceilDivNat_le_iff (a b c : ℕ) (hb : 0 < b) :
    ceilDivNat a b ≤ c ↔ a ≤ b * c := by
  unfold ceilDivNat
  rw [Nat.div_le_iff_le_mul_add_pred hb]
  generalize b * c = k
  omega

theorem lt_ceilDivNat_iff (a b c : ℕ) (hb : 0 < b) :
    c < ceilDivNat a b ↔ b * c < a := by
  rw [lt_iff_not_le, ceilDivNat_le_iff a b c hb, not_le]

theorem one_le_ceilDivNat (n T : ℕ) (hn : 1 ≤ n) (hT : 1 ≤ T) :
    1 ≤ ceilDivNat n T := by
  have h := (lt_ceilDivNat_iff n T 0 hT).mpr (by omega)
  omega

/-- The code's stride satisfies the claimed bound `ceil(n / stride) ≤ T`. -/
theorem stride_bound (n T : ℕ) (hn : 1 ≤ n) (hT : 1 ≤ T) :
    ceilDivNat n (max 1 (ceilDivNat n T)) ≤ T := by
  have h1 : 1 ≤ ceilDivNat n T := one_le_ceilDivNat n T hn hT
  have hmax : max 1 (ceilDivNat n T) = ceilDivNat n T := by omega
  rw [hmax, ceilDivNat_le_iff n (ceilDivNat n T) T (by omega)]
  have h2 := (ceilDivNat_le_iff n T (ceilDivNat n T) hT).mp (le_refl _)
  rw [Nat.mul_comm]
  exact h2

/-- The code's stride is the smallest positive integer satisfying the bound:
any strictly smaller positive stride would overshoot `T`. -/
theorem stride_minimal (n T q : ℕ) (hn : 1 ≤ n) (hT : 1 ≤ T) (hq : 1 ≤ q)
    (hlt : q < max 1 (ceilDivNat n T)) : T < ceilDivNat n q := by
  have h1 : 1 ≤ ceilDivNat n T := one_le_ceilDivNat n T hn hT
  have hmax : max 1 (ceilDivNat n T) = ceilDivNat n T := by omega
  rw [hmax] at hlt
  have h2 := (lt_ceilDivNat_iff n T q hT).mp hlt
  rw [lt_ceilDivNat_iff n q T (by omega), Nat.mul_comm]
  exact h2

/-- The sampling loop is the flat concatenation of the decoded survivors of
the visited indices. -/
theorem sampleLoop_eq_spec (cpuPoints : List (JSNum ℚ)) (n s i : ℕ) :
    sampleLoop cpuPoints n s i =
      (((strideIndicesAux n s i).filterMap (decodeSamplePoint cpuPoints)).map
        (fun p => [p.1, p.2.1, p.2.2])).flatten := by
  by_cases h : i < n ∧ 1 ≤ s
  · rw [sampleLoop, strideIndicesAux, dif_pos h, dif_pos h,
      sampleLoop_eq_spec cpuPoints n s (i + s)]
    cases hdec : decodeSamplePoint cpuPoints i <;> simp [hdec]
  · rw [sampleLoop, strideIndicesAux, dif_neg h, dif_neg h]
    simp
termination_by n - i
decreasing_by omega

/-- A step identity for ceiling division. -/
theorem ceilDivNat_succ_step (m s : ℕ) (hs : 1 ≤ s) (hm : 1 ≤ m) :
    ceilDivNat m s = 1 + ceilDivNat (m - s) s := by
  unfold ceilDivNat
  rcases le_or_lt m s with h | h
  · have h0 : m - s = 0 := by omega
    rw [h0]
    rw [show m + s - 1 = (m - 1) + 1 * s by omega,
      Nat.add_mul_div_right _ _ (by omega : 0 < s)]
    rw [Nat.div_eq_of_lt (by omega : m - 1 < s)]
    rw [show (0 : ℕ) + s - 1 = s - 1 by omega,
      Nat.div_eq_of_lt (by omega : s - 1 < s)]
  · rw [show m + s - 1 = (m - s + s - 1) + 1 * s by omega,
      Nat.add_mul_div_right _ _ (by omega : 0 < s)]
    exact Nat.add_comm _ _

/-- The loop visits exactly `ceil((n − i) / s)` indices. -/
theorem strideIndicesAux_length (n s i : ℕ) (hs : 1 ≤ s) :
    (strideIndicesAux n s i).length = ceilDivNat (n - i) s := by
  by_cases h : i < n ∧ 1 ≤ s
  · rw [strideIndicesAux, dif_pos h]
    have ih := strideIndicesAux_length n s (i + s) hs
    simp only [List.length_cons, ih]
    rw [ceilDivNat_succ_step (n - i) s hs (by omega),
      show n - (i + s) = n - i - s by omega]
    omega
  · rw [strideIndicesAux, dif_neg h]
    have h0 : n - i = 0 := by omega
    rw [h0]
    unfold ceilDivNat
    rw [show (0 : ℕ) + s - 1 = s - 1 by omega,
      Nat.div_eq_of_lt (by omega : s - 1 < s)]
    rfl
termination_by n - i
decreasing_by omega

/-- Flattening triples triples the length. -/
theorem tripleJoin_length (l : List (ℚ × ℚ × ℚ)) :
    ((l.map (fun p => [p.1, p.2.1, p.2.2])).flatten).length = 3 * l.length := by
  induction l with
  | nil => rfl
  | cons a t ih =>
    simp [ih]
    omega

/-- C4 counterexample: with a 3-entry buffer (one point decoding to the
finite values `(−1, −1, 1)`), `pointCount = 1` and `targetSampleCount = −5`
(negative, so the code silently substitutes the default 18000), the result
retains one point, and `sampledPointCount = 1` exceeds the supplied
`targetSampleCount = −5`; there is also no integer stride `s ≥ 1` with
`ceil(1/s) ≤ −5`, so the claimed stride-minimality is unsatisfiable at this
input. -/
theorem sampleCpuPointsForFocus_counterexample :
    sampleCpuPointsForFocus
        [JSNum.fin 15360, JSNum.fin 15360, JSNum.fin 15360]
        (JSNum.fin 1) (JSNum.fin (-5)) =
      some
        { samples := [-1, -1, 1]
          stride := JSNum.fin 1
          sourcePointCount := 1
          sampledPointCount := 1 } ∧
    ¬ ((1 : ℚ) ≤ -5) := by
  have hb1 : ((15360 : ℤ).toNat &&& 31744) >>> 10 = 15 := by decide
  have hb2 : (15360 : ℤ).toNat &&& 1023 = 0 := by decide
  have hb3 : (15360 : ℤ).toNat &&& 32768 = 0 := by decide
  have hdec : decodeFloat16 (JSNum.fin (15360 : ℚ)) = JSNum.fin 1 := by
    unfold decodeFloat16 toUint16 jsTruncInt
    norm_num [hb1, hb2, hb3, JSNum.isFinite]
  have hdp : decodeSamplePoint
      [JSNum.fin 15360, JSNum.fin 15360, JSNum.fin 15360] 0 =
      some (-1, -1, 1) := by
    simp [decodeSamplePoint, hdec, JSNum.neg]
  have hsrc : sourceOf [JSNum.fin 15360, JSNum.fin 15360, JSNum.fin 15360]
      (JSNum.fin 1) = 1 := by decide
  have hnt : normalizedTargetOf (JSNum.fin (-5)) = 18000 := by decide
  have hmax : max 1 (ceilDivNat 1 18000) = 1 := by decide
  have hloop : sampleLoop
      [JSNum.fin 15360, JSNum.fin 15360, JSNum.fin 15360] 1 1 0 =
      [-1, -1, 1] := by
    rw [sampleLoop, dif_pos (by norm_num : (0 : ℕ) < 1 ∧ 1 ≤ 1),
      sampleLoop, dif_neg (by norm_num : ¬ ((1 : ℕ) < 1 ∧ 1 ≤ 1)), hdp]
    rfl
  refine ⟨?_, by norm_num⟩
  unfold sampleCpuPointsForFocus
  rw [hsrc, hnt, hmax, hloop]
  norm_num

/-- C4 amended: for the effective target `T = floor(targetSampleCount)` when
the parameter is finite and positive (else the default 18000): the result is
none when the buffer has fewer than 3 entries or the source point count is
zero; any returned record reports the clamped source point count and at most
`T` sampled points; when `T ≥ 1` the stride `max(1, ceil(n/T))` is the least
positive integer with `ceil(n/stride) ≤ T`; and when `T ≥ 1` the result is
exactly the flat list of decoded survivors (first two axes sign-flipped,
non-finite points dropped) of the visited indices, or none when nothing
survives.  (When `T = 0`, i.e. the parameter lies in `(0, 1)`, the JS stride
is infinite and the result retains no points.) -/
theorem sampleCpuPointsForFocus_amended (cpuPoints : List (JSNum ℚ))
    (pc t : JSNum ℚ) :
    (cpuPoints.length < 3 → sampleCpuPointsForFocus cpuPoints pc t = none) ∧
    (sourceOf cpuPoints pc = 0 → sampleCpuPointsForFocus cpuPoints pc t = none) ∧
    (∀ r, sampleCpuPointsForFocus cpuPoints pc t = some r →
      r.sourcePointCount = sourceOf cpuPoints pc ∧
      r.sampledPointCount ≤ normalizedTargetOf t) ∧
    (1 ≤ normalizedTargetOf t → 1 ≤ sourceOf cpuPoints pc →
      ceilDivNat (sourceOf cpuPoints pc)
          (max 1 (ceilDivNat (sourceOf cpuPoints pc) (normalizedTargetOf t))) ≤
        normalizedTargetOf t ∧
      ∀ q, 1 ≤ q →
        q < max 1 (ceilDivNat (sourceOf cpuPoints pc) (normalizedTargetOf t)) →
        normalizedTargetOf t < ceilDivNat (sourceOf cpuPoints pc) q) ∧
    (1 ≤ normalizedTargetOf t → ¬ cpuPoints.length < 3 →
      ¬ sourceOf cpuPoints pc = 0 →
      sampleCpuPointsForFocus cpuPoints pc t =
        (if (retainedSamplesSpec cpuPoints (sourceOf cpuPoints pc)
              (max 1 (ceilDivNat (sourceOf cpuPoints pc)
                (normalizedTargetOf t)))).length = 0 then none
         else
          some
            { samples := retainedSamplesSpec cpuPoints (sourceOf cpuPoints pc)
                (max 1 (ceilDivNat (sourceOf cpuPoints pc) (normalizedTargetOf t)))
              stride := JSNum.fin ((max 1 (ceilDivNat (sourceOf cpuPoints pc)
                (normalizedTargetOf t)) : ℕ) : ℚ)
              sourcePointCount := sourceOf cpuPoints pc
              sampledPointCount := (retainedSamplesSpec cpuPoints
                (sourceOf cpuPoints pc)
                (max 1 (ceilDivNat (sourceOf cpuPoints pc)
                  (normalizedTargetOf t)))).length / 3 })) := by
  have hrw : ∀ n s : ℕ, sampleLoop cpuPoints n s 0 = retainedSamplesSpec cpuPoints n s := by
    intro n s
    rw [sampleLoop_eq_spec]
    rfl
  refine ⟨?_, ?_, ?_, ?_, ?_⟩
  · intro h
    unfold sampleCpuPointsForFocus
    rw [if_pos h]
  · intro h
    unfold sampleCpuPointsForFocus
    by_cases h3 : cpuPoints.length < 3
    · rw [if_pos h3]
    · rw [if_neg h3, if_pos h]
  · intro r hr
    unfold sampleCpuPointsForFocus at hr
    by_cases h3 : cpuPoints.length < 3
    · rw [if_pos h3] at hr
      exact absurd hr (by simp)
    rw [if_neg h3] at hr
    by_cases h0 : sourceOf cpuPoints pc = 0
    · rw [if_pos h0] at hr
      exact absurd hr (by simp)
    rw [if_neg h0] at hr
    by_cases hT : normalizedTargetOf t = 0
    · rw [if_pos hT] at hr
      cases hdec : decodeSamplePoint cpuPoints 0 with
      | none =>
        rw [hdec] at hr
        exact absurd hr (by simp)
      | some p =>
        rw [hdec] at hr
        cases hr
        exact ⟨rfl, Nat.zero_le _⟩
    · rw [if_neg hT] at hr
      by_cases hlen : (sampleLoop cpuPoints (sourceOf cpuPoints pc)
          (max 1 (ceilDivNat (sourceOf cpuPoints pc) (normalizedTargetOf t)))
          0).length = 0
      · rw [if_pos hlen] at hr
        exact absurd hr (by simp)
      · rw [if_neg hlen] at hr
        cases hr
        refine ⟨rfl, ?_⟩
        have hs : 1 ≤ max 1 (ceilDivNat (sourceOf cpuPoints pc)
            (normalizedTargetOf t)) := le_max_left _ _
        have hlen3 : (sampleLoop cpuPoints (sourceOf cpuPoints pc)
            (max 1 (ceilDivNat (sourceOf cpuPoints pc) (normalizedTargetOf t)))
            0).length =
            3 * ((strideIndicesAux (sourceOf cpuPoints pc)
              (max 1 (ceilDivNat (sourceOf cpuPoints pc) (normalizedTargetOf t)))
              0).filterMap (decodeSamplePoint cpuPoints)).length := by
          rw [sampleLoop_eq_spec]
          exact tripleJoin_length _
        rw [hlen3, Nat.mul_div_cancel_left _ (by norm_num)]
        calc ((strideIndicesAux (sourceOf cpuPoints pc)
              (max 1 (ceilDivNat (sourceOf cpuPoints pc) (normalizedTargetOf t)))
              0).filterMap (decodeSamplePoint cpuPoints)).length
            ≤ (strideIndicesAux (sourceOf cpuPoints pc)
              (max 1 (ceilDivNat (sourceOf cpuPoints pc) (normalizedTargetOf t)))
              0).length := List.length_filterMap_le _ _
          _ = ceilDivNat (sourceOf cpuPoints pc - 0)
              (max 1 (ceilDivNat (sourceOf cpuPoints pc) (normalizedTargetOf t))) :=
              strideIndicesAux_length _ _ 0 hs
          _ = ceilDivNat (sourceOf cpuPoints pc)
              (max 1 (ceilDivNat (sourceOf cpuPoints pc) (normalizedTargetOf t))) := by
              rw [Nat.sub_zero]
          _ ≤ normalizedTargetOf t := stride_bound _ _ (by omega) (by omega)
  · intro hT hn
    exact ⟨stride_bound _ _ hn hT, fun q hq hlt => stride_minimal _ _ q hn hT hq hlt⟩
  · intro hT h3 h0
    unfold sampleCpuPointsForFocus
    rw [if_neg h3, if_neg h0, if_neg (by omega : ¬ normalizedTargetOf t = 0), hrw]

/-- Witness for C4 amended: with a 1-point buffer and the default-like
target 18000, the effective target is 18000 ≥ 1, the source count is 1, and
the code's stride 1 satisfies the claimed bound. -/
theorem sampleCpuPointsForFocus_amended_witness :
    (1 ≤ normalizedTargetOf (JSNum.fin 18000) ∧
      1 ≤ sourceOf [JSNum.fin 15360, JSNum.fin 15360, JSNum.fin 15360]
        (JSNum.fin 1)) ∧
    ceilDivNat (sourceOf [JSNum.fin 15360, JSNum.fin 15360, JSNum.fin 15360]
        (JSNum.fin 1))
      (max 1 (ceilDivNat
        (sourceOf [JSNum.fin 15360, JSNum.fin 15360, JSNum.fin 15360]
          (JSNum.fin 1))
        (normalizedTargetOf (JSNum.fin 18000)))) ≤
      normalizedTargetOf (JSNum.fin 18000) := by
  have h1 : 1 ≤ normalizedTargetOf (JSNum.fin 18000) := by decide
  have h2 : 1 ≤ sourceOf [JSNum.fin 15360, JSNum.fin 15360, JSNum.fin 15360]
      (JSNum.fin 1) := by decide
  exact ⟨⟨h1, h2⟩,
    ((sampleCpuPointsForFocus_amended
      [JSNum.fin 15360, JSNum.fin 15360, JSNum.fin 15360]
      (JSNum.fin 1) (JSNum.fin 18000)).2.2.2.1 h1 h2).1⟩

namespace JSNum

variable {α : Type} [LinearOrderedField α]

@[simp] theorem nan_add (x : JSNum α) : add nan x = nan := by cases x <;> rfl

@[simp] theorem add_nan (x : JSNum α) : add x nan = nan := by cases x <;> rfl

@[simp] theorem neg_nan : neg (nan : JSNum α) = nan := rfl

@[simp] theorem nan_sub (x : JSNum α) : sub nan x = nan := by cases x <;> rfl

@[simp] theorem sub_nan (x : JSNum α) : sub x nan = nan := by cases x <;> rfl

@[simp] theorem nan_mul (x : JSNum α) : mul nan x = nan := by cases x <;> rfl

@[simp] theorem mul_nan (x : JSNum α) : mul x nan = nan := by cases x <;> rfl

@[simp] theorem abs_nan : abs (nan : JSNum α) = nan := rfl

@[simp] theorem le_nan (x : JSNum α) : le x nan = false := by cases x <;> rfl

@[simp] theorem nan_le (x : JSNum α) : le nan x = false := by cases x <;> rfl

@[simp] theorem lt_nan (x : JSNum α) : lt x nan = false := by cases x <;> rfl

@[simp] theorem nan_lt (x : JSNum α) : lt nan x = false := by cases x <;> rfl

@[simp] theorem fin_add_fin (x y : α) : add (fin x) (fin y) = fin (x + y) := rfl

@[simp] theorem fin_sub_fin (x y : α) : sub (fin x) (fin y) = fin (x - y) := by
  simp [sub, neg, add, sub_eq_add_neg]

@[simp] theorem fin_mul_fin (x y : α) : mul (fin x) (fin y) = fin (x * y) := rfl

@[simp] theorem le_fin_fin (x y : α) : le (fin x) (fin y) = decide (x ≤ y) := rfl

@[simp] theorem lt_fin_fin (x y : α) : lt (fin x) (fin y) = decide (x < y) := rfl

@[simp] theorem abs_fin (x : α) : abs (fin x) = fin (if x < 0 then -x else x) := rfl

@[simp] theorem lt_posInf_false (x : JSNum α) : lt posInf x = false := by
  cases x <;> rfl

@[simp] theorem fin_lt_posInf (x : α) : lt (fin x) posInf = true := rfl

end JSNum

/-- C10: a negative or non-finite `maxDistanceSq` is silently replaced by an
unlimited budget — the result is identical to calling with `+∞`. -/
theorem maxDistanceSqBudget_claim (samples : List (JSNum ℝ)) (o d : Vec3 ℝ)
    (m : JSNum ℝ)
    (h : JSNum.isFinite m = false ∨ JSNum.lt m (JSNum.fin 0) = true) :
    findClosestSampleToRay samples o d m =
      findClosestSampleToRay samples o d JSNum.posInf := by
  have hl : distanceSqLimitOf m = JSNum.posInf := by
    unfold distanceSqLimitOf
    rcases h with h | h
    · rw [h]
      simp
    · cases m with
      | fin q =>
        have hq : ¬ (0 : ℝ) ≤ q := not_le.mpr (by simpa using h)
        simp [JSNum.isFinite, hq]
      | posInf => simp at h
      | negInf => simp [JSNum.isFinite]
      | nan => simp [JSNum.isFinite]
  have hr : distanceSqLimitOf JSNum.posInf = JSNum.posInf := by
    simp [distanceSqLimitOf, JSNum.isFinite]
  unfold findClosestSampleToRay
  rw [show distanceSqLimitOf m = distanceSqLimitOf JSNum.posInf from
    hl.trans hr.symm]

/-- Witness for C10 at a concrete negative budget. -/
theorem maxDistanceSqBudget_claim_witness :
    JSNum.lt (JSNum.fin (-1 : ℝ)) (JSNum.fin 0) = true ∧
    findClosestSampleToRay [] ⟨JSNum.fin 0, JSNum.fin 0, JSNum.fin 0⟩
        ⟨JSNum.fin 0, JSNum.fin 0, JSNum.fin 1⟩ (JSNum.fin (-1)) =
      findClosestSampleToRay [] ⟨JSNum.fin 0, JSNum.fin 0, JSNum.fin 0⟩
        ⟨JSNum.fin 0, JSNum.fin 0, JSNum.fin 1⟩ JSNum.posInf := by
  have h : JSNum.lt (JSNum.fin (-1 : ℝ)) (JSNum.fin 0) = true := by
    simp only [JSNum.lt_fin_fin, decide_eq_true_eq]
    norm_num
  exact ⟨h, maxDistanceSqBudget_claim [] _ _ _ (Or.inr h)⟩

/-- C3 counterexample: with unit direction `(0,0,1)` from the origin, the
samples `(2⁻²⁰, 0, 1)` (squared distance `2⁻⁴⁰ ≈ 9.1e-13`, projection 1)
and `(0, 0, 2)` (squared distance 0, projection 2) are within `1e-12` of
each other, so under the claimed rule the tie is broken in favour of the
first (smaller projection); the code instead returns the second (strictly
smaller distance always wins the scan), so the returned sample is within
`1e-12` of a qualifying sample with a smaller projection. -/
theorem findClosestSampleToRay_counterexample :
    findClosestSampleToRay
        [JSNum.fin (1 / 1048576), JSNum.fin 0, JSNum.fin 1,
         JSNum.fin 0, JSNum.fin 0, JSNum.fin 2]
        ⟨JSNum.fin 0, JSNum.fin 0, JSNum.fin 0⟩
        ⟨JSNum.fin 0, JSNum.fin 0, JSNum.fin 1⟩ JSNum.posInf =
      some ⟨3, JSNum.fin 0, JSNum.fin 0, JSNum.fin 2, JSNum.fin 0,
        JSNum.fin 2⟩ ∧
    rayDistanceOf ⟨JSNum.fin 0, JSNum.fin 0, JSNum.fin 0⟩
        ⟨JSNum.fin 0, JSNum.fin 0, JSNum.fin 1⟩
        (JSNum.fin (1 / 1048576)) (JSNum.fin 0) (JSNum.fin 1) = JSNum.fin 1 ∧
    perpDistanceSqOf ⟨JSNum.fin 0, JSNum.fin 0, JSNum.fin 0⟩
        ⟨JSNum.fin 0, JSNum.fin 0, JSNum.fin 1⟩
        (JSNum.fin (1 / 1048576)) (JSNum.fin 0) (JSNum.fin 1) (JSNum.fin 1) =
      JSNum.fin (1 / 1099511627776) ∧
    |(1 / 1099511627776 : ℝ) - 0| ≤ 1 / 1000000000000 ∧ (1 : ℝ) < 2 := by
  have hL : hypot3 (JSNum.fin (0 : ℝ)) (JSNum.fin 0) (JSNum.fin 1) =
      JSNum.fin 1 := by
    unfold hypot3
    simp only [JSNum.isInfinite, Bool.or_self]
    rw [if_neg (by simp)]
    rw [show ((0 : ℝ) * 0 + 0 * 0 + 1 * 1) = 1 by norm_num, Real.sqrt_one]
  have hdx : JSNum.div (JSNum.fin (0 : ℝ)) (JSNum.fin 1) = JSNum.fin 0 := by
    simp [JSNum.div]
  have hdz : JSNum.div (JSNum.fin (1 : ℝ)) (JSNum.fin 1) = JSNum.fin 1 := by
    simp [JSNum.div]
  have h_t1 : rayDistanceOf ⟨JSNum.fin 0, JSNum.fin 0, JSNum.fin 0⟩
      ⟨JSNum.fin 0, JSNum.fin 0, JSNum.fin 1⟩
      (JSNum.fin (1 / 1048576)) (JSNum.fin 0) (JSNum.fin 1) = JSNum.fin 1 := by
    simp [rayDistanceOf]
  have h_d1 : perpDistanceSqOf ⟨JSNum.fin 0, JSNum.fin 0, JSNum.fin 0⟩
      ⟨JSNum.fin 0, JSNum.fin 0, JSNum.fin 1⟩
      (JSNum.fin (1 / 1048576)) (JSNum.fin 0) (JSNum.fin 1) (JSNum.fin 1) =
      JSNum.fin (1 / 1099511627776) := by
    simp [perpDistanceSqOf]
    norm_num
  have h_t2 : rayDistanceOf ⟨JSNum.fin 0, JSNum.fin 0, JSNum.fin 0⟩
      ⟨JSNum.fin 0, JSNum.fin 0, JSNum.fin 1⟩
      (JSNum.fin 0) (JSNum.fin 0) (JSNum.fin 2) = JSNum.fin 2 := by
    simp [rayDistanceOf]
  have h_d2 : perpDistanceSqOf ⟨JSNum.fin 0, JSNum.fin 0, JSNum.fin 0⟩
      ⟨JSNum.fin 0, JSNum.fin 0, JSNum.fin 1⟩
      (JSNum.fin 0) (JSNum.fin 0) (JSNum.fin 2) (JSNum.fin 2) =
      JSNum.fin 0 := by
    simp [perpDistanceSqOf]
  have hupd1 : rayLoopUpdate ⟨JSNum.fin 0, JSNum.fin 0, JSNum.fin 0⟩
      ⟨JSNum.fin 0, JSNum.fin 0, JSNum.fin 1⟩ JSNum.posInf
      ⟨none, JSNum.posInf, JSNum.posInf⟩ 0
      (JSNum.fin (1 / 1048576)) (JSNum.fin 0) (JSNum.fin 1) =
      ⟨some 0, JSNum.fin (1 / 1099511627776), JSNum.fin 1⟩ := by
    unfold rayLoopUpdate
    rw [h_t1, h_d1]
    norm_num
  have hupd2 : rayLoopUpdate ⟨JSNum.fin 0, JSNum.fin 0, JSNum.fin 0⟩
      ⟨JSNum.fin 0, JSNum.fin 0, JSNum.fin 1⟩ JSNum.posInf
      ⟨some 0, JSNum.fin (1 / 1099511627776), JSNum.fin 1⟩ 3
      (JSNum.fin 0) (JSNum.fin 0) (JSNum.fin 2) =
      ⟨some 3, JSNum.fin 0, JSNum.fin 2⟩ := by
    unfold rayLoopUpdate
    rw [h_t2, h_d2]
    norm_num
  have hloop : rayLoop ⟨JSNum.fin 0, JSNum.fin 0, JSNum.fin 0⟩
      ⟨JSNum.fin 0, JSNum.fin 0, JSNum.fin 1⟩ JSNum.posInf
      [JSNum.fin (1 / 1048576), JSNum.fin 0, JSNum.fin 1,
       JSNum.fin 0, JSNum.fin 0, JSNum.fin 2] 0
      ⟨none, JSNum.posInf, JSNum.posInf⟩ =
      ⟨some 3, JSNum.fin 0, JSNum.fin 2⟩ := by
    rw [rayLoop, hupd1, rayLoop, hupd2, rayLoop]
  refine ⟨?_, h_t1, h_d1, by
    rw [sub_zero, abs_of_nonneg (by norm_num : (0 : ℝ) ≤ 1 / 1099511627776)]
    norm_num, by norm_num⟩
  unfold findClosestSampleToRay normalizedRayDir
  rw [if_neg (by norm_num)]
  rw [hL, hdx, hdz]
  rw [if_neg (by norm_num), if_neg (by simp [JSNum.isFinite])]
  rw [show distanceSqLimitOf JSNum.posInf = JSNum.posInf from by
    simp [distanceSqLimitOf, JSNum.isFinite]]
  rw [hloop]
  rfl

/-- Reading position `n` of a list whose `drop n` is known. -/
theorem getD_of_drop_cons (l t : List (JSNum ℝ)) (n : ℕ) (a : JSNum ℝ)
    (h : l.drop n = a :: t) : l.getD n JSNum.nan = a := by
  have h0 : l[n]? = some a := by
    have h1 := List.getElem?_drop l n 0
    rw [h] at h1
    simpa using h1.symm
  simp [List.getD, h0]

/-- Reading position `n + j` of a list through its `drop n`. -/
theorem getD_drop_at (l : List (JSNum ℝ)) (n j : ℕ) (a : JSNum ℝ)
    (h : (l.drop n)[j]? = some a) : l.getD (n + j) JSNum.nan = a := by
  have h1 := List.getElem?_drop l n j
  rw [h] at h1
  simp [List.getD, ← h1]

/-- A loop iteration whose projection computes to NaN never changes the
incumbent. -/
theorem rayLoopUpdate_of_t_nan (origin dir : Vec3 ℝ) (limit : JSNum ℝ)
    (acc : RayBest) (off : ℕ) (px py pz : JSNum ℝ)
    (h : rayDistanceOf origin dir px py pz = JSNum.nan) :
    rayLoopUpdate origin dir limit acc off px py pz = acc := by
  unfold rayLoopUpdate
  rw [h]
  simp [perpDistanceSqOf]

/-- A trailing partial triple (missing `y`) never changes the incumbent. -/
theorem rayLoopUpdate_py_nan (origin dir : Vec3 ℝ) (limit : JSNum ℝ)
    (acc : RayBest) (off : ℕ) (px pz : JSNum ℝ) :
    rayLoopUpdate origin dir limit acc off px JSNum.nan pz = acc := by
  apply rayLoopUpdate_of_t_nan
  simp [rayDistanceOf]

/-- A trailing partial triple (missing `z`) never changes the incumbent. -/
theorem rayLoopUpdate_pz_nan (origin dir : Vec3 ℝ) (limit : JSNum ℝ)
    (acc : RayBest) (off : ℕ) (px py : JSNum ℝ) :
    rayLoopUpdate origin dir limit acc off px py JSNum.nan = acc := by
  apply rayLoopUpdate_of_t_nan
  simp [rayDistanceOf]

/-- A NaN component in the normalized direction makes every projection NaN,
so the whole loop is the identity. -/
theorem rayLoopUpdate_nanDir (origin dir : Vec3 ℝ) (limit : JSNum ℝ)
    (acc : RayBest) (off : ℕ) (px py pz : JSNum ℝ)
    (h : dir.x = JSNum.nan ∨ dir.y = JSNum.nan ∨ dir.z = JSNum.nan) :
    rayLoopUpdate origin dir limit acc off px py pz = acc := by
  apply rayLoopUpdate_of_t_nan
  rcases h with h | h | h <;> simp [rayDistanceOf, h]

theorem rayLoop_nanDir (origin dir : Vec3 ℝ) (limit : JSNum ℝ)
    (h : dir.x = JSNum.nan ∨ dir.y = JSNum.nan ∨ dir.z = JSNum.nan) :
    ∀ (l : List (JSNum ℝ)) (off : ℕ) (acc : RayBest),
      rayLoop origin dir limit l off acc = acc
  | [], _, _ => rfl
  | [x], off, acc => by
      rw [rayLoop, rayLoopUpdate_nanDir origin dir limit acc off _ _ _ h]
  | [x, y], off, acc => by
      rw [rayLoop, rayLoopUpdate_nanDir origin dir limit acc off _ _ _ h]
  | x :: y :: z :: rest, off, acc => by
      rw [rayLoop, rayLoopUpdate_nanDir origin dir limit acc off _ _ _ h,
        rayLoop_nanDir origin dir limit h rest (off + 3) acc]

theorem RayInv.mono {samples : List (JSNum ℝ)} {origin dir : Vec3 ℝ}
    {limit : JSNum ℝ} {k k' : ℕ} {acc : RayBest}
    (h : RayInv samples origin dir limit k acc) (hk : k ≤ k') :
    RayInv samples origin dir limit k' acc := by
  rcases h with h | ⟨o, h1, h2, h3, h4⟩
  · exact Or.inl h
  · exact Or.inr ⟨o, h1, h2, by omega, h4⟩

theorem rayLoopUpdate_inv (samples : List (JSNum ℝ)) (origin dir : Vec3 ℝ)
    (limit : JSNum ℝ) (off : ℕ) (acc : RayBest) (x y z : JSNum ℝ)
    (hx : samples.getD off JSNum.nan = x)
    (hy : samples.getD (off + 1) JSNum.nan = y)
    (hz : samples.getD (off + 2) JSNum.nan = z)
    (h3 : off % 3 = 0)
    (hinv : RayInv samples origin dir limit off acc) :
    RayInv samples origin dir limit (off + 3)
      (rayLoopUpdate origin dir limit acc off x y z) := by
  unfold rayLoopUpdate
  split
  · exact hinv.mono (by omega)
  · next h1 =>
    split
    · exact hinv.mono (by omega)
    · next h2 =>
      split
      · refine Or.inr ⟨off, rfl, h3, by omega, ?_, ?_, ?_, ?_⟩
        · rw [hx, hy, hz]
        · rw [hx, hy, hz]
        · simpa using h1
        · simpa using h2
      · exact hinv.mono (by omega)

theorem rayLoop_inv (samples : List (JSNum ℝ)) (origin dir : Vec3 ℝ)
    (limit : JSNum ℝ) :
    ∀ (l : List (JSNum ℝ)) (off : ℕ) (acc : RayBest),
      samples.drop off = l → off % 3 = 0 →
      RayInv samples origin dir limit off acc →
      RayInv samples origin dir limit (off + l.length)
        (rayLoop origin dir limit l off acc)
  | [], off, acc => by
      intro _ _ hinv
      rw [rayLoop]
      simpa using hinv
  | [x], off, acc => by
      intro _ _ hinv
      rw [rayLoop, rayLoopUpdate_py_nan]
      exact hinv.mono (by omega)
  | [x, y], off, acc => by
      intro _ _ hinv
      rw [rayLoop, rayLoopUpdate_pz_nan]
      exact hinv.mono (by omega)
  | x :: y :: z :: rest, off, acc => by
      intro hdrop h3 hinv
      rw [rayLoop]
      have hx : samples.getD off JSNum.nan = x := getD_of_drop_cons _ _ _ _ hdrop
      have hy : samples.getD (off + 1) JSNum.nan = y :=
        getD_drop_at samples off 1 y (by simp [hdrop])
      have hz : samples.getD (off + 2) JSNum.nan = z :=
        getD_drop_at samples off 2 z (by simp [hdrop])
      have hdrop3 : samples.drop (off + 3) = rest := by
        have h1 : (samples.drop off).drop 3 = samples.drop (off + 3) := by
          rw [List.drop_drop]
        rw [← h1, hdrop]
        rfl
      have hrec := rayLoop_inv samples origin dir limit rest (off + 3)
        (rayLoopUpdate origin dir limit acc off x y z) hdrop3 (by omega)
        (rayLoopUpdate_inv samples origin dir limit off acc x y z hx hy hz h3
          hinv)
      have hlen : off + 3 + rest.length = off + (x :: y :: z :: rest).length := by
        simp
        omega
      rw [hlen] at hrec
      exact hrec

theorem hypot3_of_nonfinite (a b c : JSNum ℝ)
    (h : JSNum.isFinite a = false ∨ JSNum.isFinite b = false ∨
      JSNum.isFinite c = false) :
    hypot3 a b c = JSNum.posInf ∨ hypot3 a b c = JSNum.nan := by
  unfold hypot3
  cases a <;> cases b <;> cases c <;>
    simp_all [JSNum.isFinite, JSNum.isInfinite]

theorem div_posInf_of_nonfinite (v : JSNum ℝ)
    (h : JSNum.isFinite v = false) :
    JSNum.div v JSNum.posInf = JSNum.nan := by
  cases v <;> simp_all [JSNum.isFinite, JSNum.div]

/-- C3 amended: `findClosestSampleToRay` returns none when the buffer holds
fewer than 3 entries, the direction length fails the `> 1e-12` test (NaN
included), the origin has a non-finite component, or the direction has a
non-finite component; and any returned hit lies at a full sample triple
(offset a multiple of 3, within the buffer), carries exactly the projection
and squared perpendicular distance recomputed from that triple along the
normalized ray, and passed both loop filters (projection not `≤ 0`, squared
distance not above the effective budget).  The winner itself is chosen by
the left-to-right incumbent scan of the source (strictly smaller squared
distance replaces the incumbent; a squared distance within `1e-12` of the
incumbent's with strictly smaller projection also replaces it), which is
order-dependent rather than the claimed global smallest-distance rule. -/
theorem findClosestSampleToRay_amended (samples : List (JSNum ℝ))
    (o d : Vec3 ℝ) (m : JSNum ℝ) :
    (samples.length < 3 → findClosestSampleToRay samples o d m = none) ∧
    (JSNum.lt (JSNum.fin (1 / 1000000000000)) (hypot3 d.x d.y d.z) = false →
      findClosestSampleToRay samples o d m = none) ∧
    (JSNum.isFinite o.x = false ∨ JSNum.isFinite o.y = false ∨
        JSNum.isFinite o.z = false →
      findClosestSampleToRay samples o d m = none) ∧
    (JSNum.isFinite d.x = false ∨ JSNum.isFinite d.y = false ∨
        JSNum.isFinite d.z = false →
      findClosestSampleToRay samples o d m = none) ∧
    (∀ r, findClosestSampleToRay samples o d m = some r →
      r.sampleOffset % 3 = 0 ∧ r.sampleOffset + 2 < samples.length ∧
      JSNum.le r.rayDistance (JSNum.fin 0) = false ∧
      JSNum.lt (distanceSqLimitOf m) r.distanceSq = false ∧
      r.rayDistance = rayDistanceOf o (normalizedRayDir d)
        (samples.getD r.sampleOffset JSNum.nan)
        (samples.getD (r.sampleOffset + 1) JSNum.nan)
        (samples.getD (r.sampleOffset + 2) JSNum.nan) ∧
      r.distanceSq = perpDistanceSqOf o (normalizedRayDir d)
        (samples.getD r.sampleOffset JSNum.nan)
        (samples.getD (r.sampleOffset + 1) JSNum.nan)
        (samples.getD (r.sampleOffset + 2) JSNum.nan) r.rayDistance ∧
      r.x = samples.getD r.sampleOffset JSNum.nan ∧
      r.y = samples.getD (r.sampleOffset + 1) JSNum.nan ∧
      r.z = samples.getD (r.sampleOffset + 2) JSNum.nan) := by
  have n1 : samples.length < 3 → findClosestSampleToRay samples o d m = none := by
    intro h
    unfold findClosestSampleToRay
    rw [if_pos h]
  have n2 : JSNum.lt (JSNum.fin (1 / 1000000000000)) (hypot3 d.x d.y d.z)
      = false → findClosestSampleToRay samples o d m = none := by
    intro h
    unfold findClosestSampleToRay
    by_cases h1 : samples.length < 3
    · rw [if_pos h1]
    · rw [if_neg h1, if_pos (by rw [h]; rfl)]
  have n3 : JSNum.isFinite o.x = false ∨ JSNum.isFinite o.y = false ∨
      JSNum.isFinite o.z = false →
      findClosestSampleToRay samples o d m = none := by
    intro h
    unfold findClosestSampleToRay
    by_cases h1 : samples.length < 3
    · rw [if_pos h1]
    by_cases h2 : (!(JSNum.lt (JSNum.fin (1 / 1000000000000))
        (hypot3 d.x d.y d.z))) = true
    · rw [if_neg h1, if_pos h2]
    · rw [if_neg h1, if_neg h2,
        if_pos (by rcases h with h | h | h <;> simp [h])]
  have n4 : JSNum.isFinite d.x = false ∨ JSNum.isFinite d.y = false ∨
      JSNum.isFinite d.z = false →
      findClosestSampleToRay samples o d m = none := by
    intro hd
    rcases hypot3_of_nonfinite d.x d.y d.z hd with hh | hh
    · by_cases h1 : samples.length < 3
      · exact n1 h1
      by_cases h3 : JSNum.isFinite o.x = false ∨ JSNum.isFinite o.y = false ∨
          JSNum.isFinite o.z = false
      · exact n3 h3
      have hdirnan : (normalizedRayDir d).x = JSNum.nan ∨
          (normalizedRayDir d).y = JSNum.nan ∨
          (normalizedRayDir d).z = JSNum.nan := by
        rcases hd with h | h | h
        · exact Or.inl (by
            simp only [normalizedRayDir, hh]
            exact div_posInf_of_nonfinite _ h)
        · exact Or.inr (Or.inl (by
            simp only [normalizedRayDir, hh]
            exact div_posInf_of_nonfinite _ h))
        · exact Or.inr (Or.inr (by
            simp only [normalizedRayDir, hh]
            exact div_posInf_of_nonfinite _ h))
      have ho : (!(JSNum.isFinite o.x) || !(JSNum.isFinite o.y) ||
          !(JSNum.isFinite o.z)) = false := by
        simp only [not_or] at h3
        obtain ⟨ha, hb, hc⟩ := h3
        simp only [Bool.not_eq_false] at ha hb hc
        simp [ha, hb, hc]
      unfold findClosestSampleToRay
      rw [if_neg h1, if_neg (by simp [hh]), if_neg (by rw [ho]; simp),
        rayLoop_nanDir o (normalizedRayDir d) (distanceSqLimitOf m) hdirnan
          samples 0 ⟨none, JSNum.posInf, JSNum.posInf⟩]
    · exact n2 (by simp [hh])
  refine ⟨n1, n2, n3, n4, ?_⟩
  intro r hr
  unfold findClosestSampleToRay at hr
  by_cases h1 : samples.length < 3
  · rw [if_pos h1] at hr
    exact absurd hr (by simp)
  rw [if_neg h1] at hr
  by_cases h2 : (!(JSNum.lt (JSNum.fin (1 / 1000000000000))
      (hypot3 d.x d.y d.z))) = true
  · rw [if_pos h2] at hr
    exact absurd hr (by simp)
  rw [if_neg h2] at hr
  by_cases h3 : (!(JSNum.isFinite o.x) || !(JSNum.isFinite o.y) ||
      !(JSNum.isFinite o.z)) = true
  · rw [if_pos h3] at hr
    exact absurd hr (by simp)
  rw [if_neg h3] at hr
  have hinv := rayLoop_inv samples o (normalizedRayDir d)
    (distanceSqLimitOf m) samples 0 ⟨none, JSNum.posInf, JSNum.posInf⟩ rfl
    (by norm_num) (Or.inl rfl)
  rcases hb : rayLoop o (normalizedRayDir d) (distanceSqLimitOf m) samples 0
      ⟨none, JSNum.posInf, JSNum.posInf⟩ with ⟨bo, bd, bt⟩
  rw [hb] at hr hinv
  cases bo with
  | none =>
    simp at hr
  | some o' =>
    simp only [] at hr
    rcases hinv with hcontra | ⟨o2, ho2, hmod, hlt, hray, hdsq, hskip1, hskip2⟩
    · simp at hcontra
    · simp only [RayBest.bestOffset] at ho2
      have ho2' : o' = o2 := by
        simpa using ho2
      subst ho2'
      have hrr : r = ⟨o', samples.getD o' JSNum.nan,
          samples.getD (o' + 1) JSNum.nan, samples.getD (o' + 2) JSNum.nan,
          bd, bt⟩ := by
        simpa using hr.symm
      subst hrr
      dsimp only at hray hdsq hskip1 hskip2 ⊢
      exact ⟨hmod, by simpa using hlt, hskip1, hskip2, hray, hdsq, rfl, rfl, rfl⟩

/-- Witness for C3 amended at a degenerate input: an empty sample buffer
yields none. -/
theorem findClosestSampleToRay_amended_witness :
    ([] : List (JSNum ℝ)).length < 3 ∧
    findClosestSampleToRay [] ⟨JSNum.fin 0, JSNum.fin 0, JSNum.fin 0⟩
      ⟨JSNum.fin 0, JSNum.fin 0, JSNum.fin 1⟩ JSNum.posInf = none :=
  ⟨by norm_num,
    (findClosestSampleToRay_amended [] ⟨JSNum.fin 0, JSNum.fin 0, JSNum.fin 0⟩
      ⟨JSNum.fin 0, JSNum.fin 0, JSNum.fin 1⟩ JSNum.posInf).1 (by norm_num)⟩

end SafeControls
